import Mathlib

/-!
# Squeeze API (`main.go`): a shallow embedding and its verified properties

The program is a small HTTP service: `handleCompress` re-encodes an uploaded
image as JPEG, `enableCORS` wraps handlers with cross-origin headers, and the
root route returns a static JSON payload.

The embedding follows `main.go` function by function.  The collaborators the
program calls (the JPEG/PNG codecs, `os.Create`, the clock, the environment)
are fields of `Env`; the file system and the sequence of side effects are the
explicit state `World`; the `http.ResponseWriter` is the record
`ResponseWriter`.  The Go standard-library routines whose exact behaviour the
properties depend on (`strconv.Atoi`, `image.Decode`, `http.Error`,
`encoding/json` on `CompressResponse`) are transcribed from the library.
-/

set_option autoImplicit false

namespace Squeeze

/-! ## Bytes and Go strings -/

/-- A Go `byte`: arithmetic on it wraps modulo 256. -/
abbrev Byte := Fin 256

/-- The bytes of a Go string (Go strings are byte sequences; a Lean `String`
stands for its UTF-8 encoding). -/
def utf8 (s : String) : List Byte :=
  s.toList.flatMap (fun c => (String.utf8EncodeChar c).map (fun b => b.val))

/-! ## `strconv.Atoi` (Go standard library, 64-bit `int`) -/

/-- The two `strconv` error kinds (`ErrSyntax`, `ErrRange`). -/
inductive NumError where
  | ErrSyntax
  | ErrRange
  deriving DecidableEq, Repr

/-- Constant `maxUint64 = 1<<64 - 1`. -/
def maxUint64 : Nat := 2 ^ 64 - 1

/-- Largest `int` on a 64-bit platform. -/
def maxInt64 : Int := 2 ^ 63 - 1

/-- Smallest `int` on a 64-bit platform. -/
def minInt64 : Int := -(2 ^ 63)

/-- Conversion of an integer to `int64` (two-complement wrap-around). -/
def wrapInt64 (x : Int) : Int := (x + 2 ^ 63) % 2 ^ 64 - 2 ^ 63

/-- Helper `lower(c) = c | ('x' - 'X')` of `strconv`. -/
def lower (c : Byte) : Nat := c.val ||| 32

/-- The `switch` of the `ParseUint` loop: the digit a byte stands for, in any
base up to 36 (`none` is the `default` case, a syntax error). -/
def digitOf (c : Byte) : Option Nat :=
  if 48 ≤ c.val ∧ c.val ≤ 57 then some (c.val - 48)
  else if 97 ≤ lower c ∧ lower c ≤ 122 then some (lower c - 97 + 10)
  else none

/-- The digit loop of `strconv.ParseUint(s, 10, 0)`: `n` is the accumulator.
A range error returns at once, before the remaining bytes are looked at. -/
def parseUintLoop : List Byte → Nat → Nat × Option NumError
  | [], n => (n, none)
  | c :: cs, n =>
    match digitOf c with
    | none => (0, some NumError.ErrSyntax)
    | some d =>
      if d ≥ 10 then (0, some NumError.ErrSyntax)          -- d >= byte(base)
      else if n ≥ maxUint64 / 10 + 1 then
        (maxUint64, some NumError.ErrRange)                -- n*base overflows
      else
        let n10 := n * 10
        let n1 := (n10 + d) % 2 ^ 64
        if n1 < n10 ∨ n1 > maxUint64 then
          (maxUint64, some NumError.ErrRange)              -- n+d overflows
        else parseUintLoop cs n1

/-- Function `strconv.ParseUint(s, 10, 0)`. -/
def ParseUint (s : List Byte) : Nat × Option NumError :=
  if s = [] then (0, some NumError.ErrSyntax) else parseUintLoop s 0

/-- Function `strconv.ParseInt(s, 10, 0)`. -/
def ParseInt (s : List Byte) : Int × Option NumError :=
  match s with
  | [] => (0, some NumError.ErrSyntax)
  | c :: cs =>
    let neg : Bool := c.val = 45
    let rest : List Byte := if c.val = 43 ∨ c.val = 45 then cs else c :: cs
    let (un, err) := ParseUint rest
    if err = some NumError.ErrSyntax then (0, err)
    else
      let cutoff : Nat := 2 ^ 63
      if ¬ neg ∧ un ≥ cutoff then (Int.ofNat cutoff - 1, some NumError.ErrRange)
      else if neg ∧ un > cutoff then (-(Int.ofNat cutoff), some NumError.ErrRange)
      else
        let n := wrapInt64 (Int.ofNat un)
        (if neg then wrapInt64 (-n) else n, none)

/-- The digit loop of the fast path of `strconv.Atoi`. -/
def atoiFastLoop : List Byte → Int → Option Int
  | [], n => some n
  | ch :: cs, n =>
    let d : Byte := ch - 48
    if d.val > 9 then none else atoiFastLoop cs (wrapInt64 (n * 10 + Int.ofNat d.val))

/-- The fast path of `strconv.Atoi`, taken for strings of 1 to 18 bytes. -/
def atoiFast (s : List Byte) : Int × Option NumError :=
  match s with
  | [] => (0, some NumError.ErrSyntax)
  | c :: cs =>
    let signed : Bool := c.val = 45 ∨ c.val = 43
    let body : List Byte := if signed then cs else c :: cs
    if signed ∧ body.length < 1 then (0, some NumError.ErrSyntax)
    else
      match atoiFastLoop body 0 with
      | none => (0, some NumError.ErrSyntax)
      | some n => (if c.val = 45 then wrapInt64 (-n) else n, none)

/-- Function `strconv.Atoi`: the value and the error it returns. -/
def Atoi (s : String) : Int × Option NumError :=
  let b := utf8 s
  if 0 < b.length ∧ b.length < 19 then atoiFast b else ParseInt b

/-! ## `fmt`, `path/filepath` -/

/-- The verb `%d` of `fmt.Sprintf` on an `int64`: an optional minus sign and the
decimal digits. -/
def formatInt : Int → String
  | Int.ofNat m => Nat.repr m
  | Int.negSucc m => "-" ++ Nat.repr (m + 1)

/-- Call `filepath.Join(dir, name)` for a directory name and a file name that
`filepath.Clean` leaves as they are (no empty, `.` or `..` element, and no
separator inside `name`): the two joined by the separator, `/` on Unix. -/
def filepathJoin (dir name : String) : String := dir ++ "/" ++ name

/-! ## `float64` -/

/-- A `float64` value, kept as the expression that computes it: the conversion
of an integer and the IEEE-754 operations the program applies to it.  The
rounding of the operations is not interpreted. -/
inductive Float64 where
  | ofInt (n : Int)
  | sub (a b : Float64)
  | mul (a b : Float64)
  | div (a b : Float64)
  deriving DecidableEq, Repr

/-! ## `CompressResponse` and its JSON encoding -/

/-- The response data structure (`main.go`, lines 20-28).  A field absent from a
composite literal has the zero value of its type. -/
structure CompressResponse where
  Success : Bool := false
  Message : String := ""
  OriginalSize : Int := 0
  CompressedSize : Int := 0
  Savings : Float64 := Float64.ofInt 0
  DownloadURL : String := ""
  Format : String := ""
  deriving DecidableEq, Repr

/-- A JSON value of one of the kinds `CompressResponse` has. -/
inductive JSONValue where
  | bool (b : Bool)
  | str (s : String)
  | int (n : Int)
  | num (f : Float64)
  deriving DecidableEq, Repr

/-- A JSON object: its members in the order they are written. -/
abbrev JSONObject := List (String × JSONValue)

/-- What `encoding/json` writes for a `CompressResponse`: one member per
exported field, in declaration order, under the name of its `json:"..."` tag.
No tag carries `omitempty`, so no member is ever left out. -/
def marshal (d : CompressResponse) : JSONObject :=
  [("success", .bool d.Success),
   ("message", .str d.Message),
   ("originalSize", .int d.OriginalSize),
   ("compressedSize", .int d.CompressedSize),
   ("savings", .num d.Savings),
   ("downloadUrl", .str d.DownloadURL),
   ("format", .str d.Format)]

/-- The member names of a JSON object. -/
def JSONObject.keys (o : JSONObject) : List String := o.map Prod.fst

/-- The value of member `k` of a JSON object, if it has one. -/
def JSONObject.get (o : JSONObject) (k : String) : Option JSONValue :=
  (o.find? (fun m => m.1 = k)).map Prod.snd

/-! ## `net/http`: response writer and request -/

/-- One `Write` to the response body. -/
inductive Chunk where
  /-- A line of plain text (`fmt.Fprintln`). -/
  | text (s : String)
  /-- A JSON document followed by a newline (`json.Encoder.Encode`). -/
  | json (o : JSONObject)
  deriving DecidableEq, Repr

/-- A header map, as the list of its entries. -/
abbrev Header := List (String × String)

/-- Method `Header.Set` (every key the program uses is in canonical form). -/
def Header.set (h : Header) (k v : String) : Header :=
  (k, v) :: h.filter (fun e => e.1 ≠ k)

/-- Method `Header.Del`. -/
def Header.del (h : Header) (k : String) : Header :=
  h.filter (fun e => e.1 ≠ k)

/-- Method `Header.Get`: the value of the key, or the empty string. -/
def Header.get (h : Header) (k : String) : String :=
  match h.find? (fun e => e.1 = k) with
  | some e => e.2
  | none => ""

/-- The state of an `http.ResponseWriter`. -/
structure ResponseWriter where
  /-- The map `w.Header()`. -/
  header : Header := []
  /-- The status code, once the header has been written. -/
  status : Option Nat := none
  /-- The headers as they were when the header was written: those sent. -/
  sent : Header := []
  /-- The body written so far. -/
  body : List Chunk := []
  /-- Set when the handler panicked: the server drops the connection. -/
  aborted : Bool := false
  deriving DecidableEq, Repr

/-- The writer a handler is first given. -/
def ResponseWriter.fresh : ResponseWriter := {}

/-- Call `w.Header().Set(k, v)`. -/
def ResponseWriter.setHeader (w : ResponseWriter) (k v : String) : ResponseWriter :=
  { w with header := w.header.set k v }

/-- Method `WriteHeader`: the first call fixes status and headers, a later
call changes nothing. -/
def ResponseWriter.WriteHeader (w : ResponseWriter) (code : Nat) : ResponseWriter :=
  match w.status with
  | some _ => w
  | none => { w with status := some code, sent := w.header }

/-- Method `Write`: writes the header with status 200 first if it has not
been written. -/
def ResponseWriter.Write (w : ResponseWriter) (c : Chunk) : ResponseWriter :=
  let w1 := w.WriteHeader 200
  { w1 with body := w1.body ++ [c] }

/-- A panic inside the handler. -/
def ResponseWriter.abort (w : ResponseWriter) : ResponseWriter :=
  { w with aborted := true }

/-- Function `http.Error`. -/
def httpError (w : ResponseWriter) (error : String) (code : Nat) : ResponseWriter :=
  let w1 : ResponseWriter := { w with header := w.header.del "Content-Length" }
  let w2 := w1.setHeader "Content-Type" "text/plain; charset=utf-8"
  let w3 := w2.setHeader "X-Content-Type-Options" "nosniff"
  (w3.WriteHeader code).Write (Chunk.text error)

/-- Function `jsonResponse` (`main.go`, lines 152-156). -/
def jsonResponse (w : ResponseWriter) (data : CompressResponse) (status : Nat) :
    ResponseWriter :=
  let w1 := w.setHeader "Content-Type" "application/json"
  let w2 := w1.WriteHeader status
  w2.Write (Chunk.json (marshal data))

/-- An uploaded file part.  Package `mime/multipart` records the number of
content bytes as `FileHeader.Size`. -/
structure Upload where
  content : List Byte
  deriving DecidableEq, Repr

/-- Field `header.Size` of the part. -/
def Upload.Size (u : Upload) : Int := Int.ofNat u.content.length

/-- An HTTP request as the handlers see it. -/
structure Request where
  Method : String
  /-- Field `URL.Path`. -/
  Path : String := "/"
  /-- Map `r.Form` after parsing: the form values in lookup order. -/
  Form : List (String × String) := []
  /-- The file parts of the multipart body, or `none` when the body cannot be
  parsed as a multipart form. -/
  MultipartFiles : Option (List (String × Upload)) := none
  deriving DecidableEq, Repr

/-- Method `r.FormValue`: the first value of the key, or the empty string. -/
def Request.FormValue (r : Request) (key : String) : String :=
  match r.Form.find? (fun e => e.1 = key) with
  | some e => e.2
  | none => ""

/-- Method `r.FormFile`: the first file part of the key; `none` is an error
(unparsable form or missing file). -/
def Request.FormFile (r : Request) (key : String) : Option Upload :=
  match r.MultipartFiles with
  | none => none
  | some fs => (fs.find? (fun e => e.1 = key)).map Prod.snd

/-! ## The world outside the handler -/

/-- A side effect of a handler, in the order the program performs them. -/
inductive Event where
  | parseMultipartForm (maxMemory : Nat)
  | formFile (field : String)
  | decode
  | create (path : String)
  | encode (quality : Int)
  | stat (path : String)
  deriving DecidableEq, Repr

/-- The state handlers act on: the files on disk and the effects so far. -/
structure World where
  files : String → Option (List Byte)
  trace : List Event

/-- Record an effect. -/
def World.log (σ : World) (e : Event) : World :=
  { σ with trace := σ.trace ++ [e] }

/-- Set the content of a file. -/
def World.write (σ : World) (path : String) (data : List Byte) : World :=
  { σ with files := fun p => if p = path then some data else σ.files p }

/-- A handler (`http.Handler`): it acts on the response writer and the world. -/
abbrev Handler := Request → ResponseWriter → World → ResponseWriter × World

/-- What the program obtains from outside during one request. -/
structure Env (Img : Type) where
  /-- Function `os.Getenv`. -/
  getenv : String → String
  /-- The value of `time.Now().UnixNano()`. -/
  now : Int
  /-- Function `jpeg.Decode`: the image, or the text of the error. -/
  jpegDecode : List Byte → Except String Img
  /-- Function `png.Decode`. -/
  pngDecode : List Byte → Except String Img
  /-- Whether `os.Create` fails on the path. -/
  createFails : String → Bool
  /-- Function `jpeg.Encode` at a quality: the bytes that reach the file, and
  the text of the error if it fails. -/
  jpegEncode : Img → Int → List Byte × Option String
  /-- The handler `http.FileServer(http.Dir("compressed"))`. -/
  fileServer : Handler

/-! ## `image.Decode` -/

/-- An entry of the format table (`image.RegisterFormat`). -/
structure Format (Img : Type) where
  name : String
  magic : List Byte
  decode : List Byte → Except String Img

/-- Function `match` of package `image`: magic and peeked bytes have the same
length and agree byte by byte, a `?` in the magic matching any byte. -/
def matchMagic : List Byte → List Byte → Bool
  | [], [] => true
  | m :: ms, c :: cs => (m = c ∨ m = 63) && matchMagic ms cs
  | _, _ => false

/-- Method `Peek(n)` of the buffered reader: the first `n` bytes, an error when
the stream has fewer. -/
def peek (content : List Byte) (n : Nat) : Option (List Byte) :=
  if n ≤ content.length then some (content.take n) else none

/-- Function `sniff` of package `image`: the first format whose magic matches. -/
def sniff {Img : Type} (formats : List (Format Img)) (content : List Byte) :
    Option (Format Img) :=
  formats.find? (fun f =>
    match peek content f.magic.length with
    | some b => matchMagic f.magic b
    | none => false)

/-- Function `image.Decode`: image and format name, or the error text
(`image.ErrFormat` when no format matches). -/
def imageDecode {Img : Type} (formats : List (Format Img)) (content : List Byte) :
    Except String (Img × String) :=
  match sniff formats content with
  | none => Except.error "image: unknown format"
  | some f =>
    match f.decode content with
    | Except.ok m => Except.ok (m, f.name)
    | Except.error e => Except.error e

/-- The formats registered by `init` (`main.go`, lines 158-161).  The packages
`image/jpeg` and `image/png` register the same two entries when they are
imported; a repeated entry does not change which format `sniff` finds. -/
def registeredFormats {Img : Type} (env : Env Img) : List (Format Img) :=
  [ { name := "jpeg", magic := [0xff, 0xd8], decode := env.jpegDecode },
    { name := "png", magic := [0x89, 0x50, 0x4e, 0x47, 0x0d, 0x0a, 0x1a, 0x0a],
      decode := env.pngDecode } ]

/-! ## The program (`main.go`) -/

/-- Function `isProduction` (lines 168-170). -/
def isProduction {Img : Type} (env : Env Img) : Bool :=
  env.getenv "NODE_ENV" = "production"

/-- The local `allowedOrigin` of `enableCORS` (lines 69-75). -/
def allowedOrigin {Img : Type} (env : Env Img) : String :=
  if isProduction env then
    if env.getenv "ALLOWED_ORIGIN" ≠ "" then env.getenv "ALLOWED_ORIGIN"
    else "http://localhost:4321"
  else "http://localhost:4321"

/-- The five `w.Header().Set` calls of `enableCORS` (lines 77-81). -/
def setCORSHeaders {Img : Type} (env : Env Img) (w : ResponseWriter) : ResponseWriter :=
  let w1 := w.setHeader "Access-Control-Allow-Origin" (allowedOrigin env)
  let w2 := w1.setHeader "Access-Control-Allow-Methods" "POST, GET, OPTIONS"
  let w3 := w2.setHeader "Access-Control-Allow-Headers" "Content-Type"
  let w4 := w3.setHeader "Access-Control-Allow-Credentials" "true"
  w4.setHeader "Vary" "Origin"

/-- Function `enableCORS` (lines 67-89). -/
def enableCORS {Img : Type} (env : Env Img) (next : Handler) : Handler :=
  fun r w σ =>
    let w1 := setCORSHeaders env w
    if r.Method = "OPTIONS" then
      (w1.WriteHeader 200, σ)
    else
      next r w1 σ

/-- The quality computed at lines 106-110: `strconv.Atoi` with its error
discarded, and 75 in place of a value below 1. -/
def quality (qualityStr : String) : Int :=
  let q := (Atoi qualityStr).1
  if q < 1 then 75 else q

/-- The output file name of line 120, from the clock reading. -/
def outFilename (nanos : Int) : String := formatInt nanos ++ ".jpg"

/-- The output path of line 121. -/
def outPath (nanos : Int) : String := filepathJoin "compressed" (outFilename nanos)

/-- The download URL of line 147. -/
def downloadURL (origin filename : String) : String :=
  origin ++ "/download/" ++ filename

/-- The savings expression of line 139. -/
def savings (compressedSize originalSize : Int) : Float64 :=
  Float64.sub (Float64.ofInt 100)
    (Float64.mul (Float64.div (Float64.ofInt compressedSize) (Float64.ofInt originalSize))
      (Float64.ofInt 100))

/-- Function `handleCompress` (lines 91-150).  The program discards the error
of `os.Stat` (line 137); were the file missing, `compressedInfo` would be nil
and `Size()` would panic, which the writer records as `aborted`.  The files
change only through the handler here, so the `stat` finds the file that was
created and written just before. -/
def handleCompress {Img : Type} (env : Env Img) : Handler :=
  fun r w σ =>
    if r.Method ≠ "POST" then
      (httpError w "Method not allowed" 405, σ)
    else
      -- 1. Parse Uploaded File
      let σ1 := (σ.log (Event.parseMultipartForm (10 <<< 20))).log (Event.formFile "image")
      match r.FormFile "image" with
      | none =>
        (jsonResponse w { Success := false, Message := "Failed to upload image" } 400, σ1)
      | some file =>
        let q := quality (r.FormValue "quality")
        -- 2. Decode Image
        let σ2 := σ1.log Event.decode
        match imageDecode (registeredFormats env) file.content with
        | Except.error err =>
          (jsonResponse w
            { Success := false, Message := "Unsupported image format: " ++ err } 400, σ2)
        | Except.ok (img, format) =>
          -- 3. Prepare Output Path
          let name := outFilename env.now
          let path := filepathJoin "compressed" name
          let σ3 := σ2.log (Event.create path)
          if env.createFails path then
            (jsonResponse w
              { Success := false, Message := "Failed to create output file" } 500, σ3)
          else
            let σ4 := σ3.write path []
            -- 4. Compress
            let enc := env.jpegEncode img q
            let σ5 := (σ4.log (Event.encode q)).write path enc.1
            match enc.2 with
            | some _ =>
              (jsonResponse w { Success := false, Message := "Compression failed" } 500, σ5)
            | none =>
              -- 5. Calculate Stats
              let σ6 := σ5.log (Event.stat path)
              match σ6.files path with
              | none => (w.abort, σ6)        -- compressedInfo is nil: Size() panics
              | some data =>
                let compressedSize : Int := Int.ofNat data.length
                -- 6. Return JSON
                (jsonResponse w
                  { Success := true,
                    OriginalSize := file.Size,
                    CompressedSize := compressedSize,
                    Savings := savings compressedSize file.Size,
                    DownloadURL := downloadURL (env.getenv "ALLOWED_ORIGIN") name,
                    Format := format } 200, σ6)

/-- The handler registered for the pattern `/` (lines 45-51). -/
def rootHandler : Handler :=
  fun _ w σ =>
    let w1 := w.setHeader "Content-Type" "application/json"
    (w1.Write (Chunk.json (marshal { Success := true, Message := "Welcome to Squeeze API" })), σ)

/-- Whether the characters `p` begin the characters `s`. -/
def beginsWith : List Char → List Char → Bool
  | [], _ => true
  | _ :: _, [] => false
  | a :: p, b :: s => a = b && beginsWith p s

/-- Function `http.StripPrefix` for a non-empty leading string. -/
def stripLeading (lead : String) (h : Handler) : Handler :=
  fun r w σ =>
    if beginsWith lead.toList r.Path.toList then
      h { r with Path := String.mk (r.Path.toList.drop lead.length) } w σ
    else
      (httpError w "404 page not found" 404, σ)

/-- The routes of `main` (lines 40-54) for a request path in clean form: the
exact pattern `/api/compress`, the subtree `/download/`, and `/` for every
other path.  (For the path `/download` the real multiplexer redirects to
`/download/`: status 301 and a `Location` header.) -/
def serveMux {Img : Type} (env : Env Img) : Handler :=
  fun r w σ =>
    if r.Path = "/api/compress" then
      enableCORS env (handleCompress env) r w σ
    else if beginsWith "/download/".toList r.Path.toList then
      enableCORS env (stripLeading "/download/" env.fileServer) r w σ
    else if r.Path = "/download" then
      ((w.setHeader "Location" "/download/").WriteHeader 301, σ)
    else
      rootHandler r w σ

/-! ## Decimal numerals (the reading of "integer string") -/

/-- An ASCII decimal digit. -/
def isDigit (c : Byte) : Bool := 48 ≤ c.val && c.val ≤ 57

/-- The number a sequence of decimal digits denotes, continuing from `n`. -/
def digitsFrom (n : Nat) (ds : List Byte) : Nat :=
  ds.foldl (fun a c => a * 10 + (c.val - 48)) n

/-- The number denoted by a non-empty sequence of decimal digits. -/
def unsignedValue (ds : List Byte) : Option Nat :=
  if ds ≠ [] ∧ ds.all isDigit = true then some (digitsFrom 0 ds) else none

/-- The integer with the given magnitude and sign. -/
def withSign (neg : Bool) : Option Nat → Option Int
  | none => none
  | some n => some (if neg then -(n : Int) else (n : Int))

/-- The integer an integer string denotes: an optional sign `+` or `-`
followed by one or more decimal digits, read in base ten without any bound.
Every other byte string denotes nothing. -/
def decimalValue : List Byte → Option Int
  | [] => none
  | c :: cs =>
    if c.val = 43 then withSign false (unsignedValue cs)
    else if c.val = 45 then withSign true (unsignedValue cs)
    else withSign false (unsignedValue (c :: cs))

/-- The value a numeral is clamped to when it is converted to `int`. -/
def clampInt64 (v : Int) : Int :=
  if maxInt64 < v then maxInt64 else if v < minInt64 then minInt64 else v

/-! ## Auxiliary definitions for the proofs -/

/-- The number a list of decimal digit characters denotes. -/
def charsValue (l : List Char) : Nat :=
  l.foldl (fun a c => a * 10 + (c.toNat - 48)) 0

/-- The world once the form has been parsed and the file part looked up. -/
def afterForm (σ : World) : World :=
  (σ.log (Event.parseMultipartForm (10 <<< 20))).log (Event.formFile "image")

/-- The world once the encoder has run: the output file holds what it wrote. -/
def afterEncode (σ : World) (path : String) (q : Int) (data : List Byte) : World :=
  ((((((afterForm σ).log Event.decode).log (Event.create path)).write path []).log
    (Event.encode q)).write path data)

/-! ## Sample inputs -/

/-- A sample environment.  An image is stood for by the number of bytes it was
decoded from; the JPEG decoder wants at least four bytes, the encoder writes
one byte per unit of that number, and nothing fails. -/
def sampleEnv : Env Nat where
  getenv := fun k => if k = "ALLOWED_ORIGIN" then "https://squeeze.example" else ""
  now := 1700000000123456789
  jpegDecode := fun b =>
    if b.length < 4 then Except.error "unexpected EOF" else Except.ok b.length
  pngDecode := fun _ => Except.error "png: invalid format: not a PNG file"
  createFails := fun _ => false
  jpegEncode := fun img _ => (List.replicate img 0, none)
  fileServer := fun _ w σ => (w, σ)

/-- An empty disk and no effects so far. -/
def sampleWorld : World := { files := fun _ => none, trace := [] }

/-- A five-byte upload that begins with the JPEG magic. -/
def sampleUpload : Upload := { content := [0xff, 0xd8, 0xff, 0xe0, 0x00] }

/-- A well-formed compression request with the given `quality` value. -/
def sampleRequest (qualityStr : String) : Request :=
  { Method := "POST", Path := "/api/compress", Form := [("quality", qualityStr)],
    MultipartFiles := some [("image", sampleUpload)] }

/-- A compression request without an `image` part. -/
def sampleNoImage : Request :=
  { Method := "POST", Path := "/api/compress", Form := [("quality", "80")],
    MultipartFiles := some [] }

/-- A compression request whose `image` part is not an image. -/
def sampleNotImage : Request :=
  { Method := "POST", Path := "/api/compress",
    MultipartFiles := some [("image", { content := [0x68, 0x65, 0x6c, 0x6c, 0x6f] })] }

/-- A compression request whose `image` part is empty. -/
def sampleEmptyImage : Request :=
  { Method := "POST", Path := "/api/compress",
    MultipartFiles := some [("image", { content := [] })] }

/-- A handler that answers 204 and records a `stat` effect, to observe calls. -/
def sampleNext : Handler :=
  fun _ w σ => (w.WriteHeader 204, σ.log (Event.stat "next"))

/-- The sample environment one nanosecond later. -/
def sampleLater : Env Nat := { sampleEnv with now := sampleEnv.now + 1 }

/-! ## `strconv.Atoi` against decimal numerals -/

theorem digitOf_of_isDigit (c : Byte) (h : isDigit c = true) :
    digitOf c = some (c.val - 48) := by
  simp only [isDigit, Bool.and_eq_true, decide_eq_true_eq] at h
  simp [digitOf, h]

theorem digitOf_of_not_isDigit (c : Byte) (h : isDigit c = false) :
    digitOf c = none ∨ ∃ d, 10 ≤ d ∧ digitOf c = some d := by
  have h1 : ¬ (48 ≤ c.val ∧ c.val ≤ 57) := by
    intro hc
    simp [isDigit, hc.1, hc.2] at h
  unfold digitOf
  rw [if_neg h1]
  by_cases h2 : 97 ≤ lower c ∧ lower c ≤ 122
  · rw [if_pos h2]
    exact Or.inr ⟨_, by omega, rfl⟩
  · rw [if_neg h2]
    exact Or.inl rfl

theorem digitsFrom_cons (n : Nat) (c : Byte) (cs : List Byte) :
    digitsFrom n (c :: cs) = digitsFrom (n * 10 + (c.val - 48)) cs := rfl

theorem le_digitsFrom (ds : List Byte) (n : Nat) : n ≤ digitsFrom n ds := by
  induction ds generalizing n with
  | nil => exact Nat.le_refl n
  | cons c cs ih =>
    rw [digitsFrom_cons]
    exact Nat.le_trans (by omega) (ih _)


theorem parseUintLoop_cons_none (c : Byte) (cs : List Byte) (n : Nat)
    (h : digitOf c = none) : parseUintLoop (c :: cs) n = (0, some NumError.ErrSyntax) := by
  rw [parseUintLoop, h]

theorem parseUintLoop_cons_some (c : Byte) (cs : List Byte) (n d : Nat)
    (h : digitOf c = some d) :
    parseUintLoop (c :: cs) n =
      if d ≥ 10 then (0, some NumError.ErrSyntax)
      else if n ≥ maxUint64 / 10 + 1 then (maxUint64, some NumError.ErrRange)
      else if (n * 10 + d) % 2 ^ 64 < n * 10 ∨ (n * 10 + d) % 2 ^ 64 > maxUint64 then
        (maxUint64, some NumError.ErrRange)
      else parseUintLoop cs ((n * 10 + d) % 2 ^ 64) := by
  rw [parseUintLoop, h]

theorem maxUint64_eq : maxUint64 = 18446744073709551615 := by norm_num [maxUint64]

theorem parseUintLoop_exact (ds : List Byte) (n : Nat) (hd : ds.all isDigit = true)
    (hb : digitsFrom n ds ≤ maxUint64) : parseUintLoop ds n = (digitsFrom n ds, none) := by
  induction ds generalizing n with
  | nil => rfl
  | cons c cs ih =>
    rw [List.all_cons, Bool.and_eq_true] at hd
    rw [digitsFrom_cons] at hb ⊢
    have hc := hd.1
    simp only [isDigit, Bool.and_eq_true, decide_eq_true_eq] at hc
    have hle := le_digitsFrom cs (n * 10 + (c.val - 48))
    rw [maxUint64_eq] at hb
    have hn : n * 10 + (c.val - 48) ≤ 18446744073709551615 := Nat.le_trans hle hb
    have hmod : (n * 10 + (c.val - 48)) % 2 ^ 64 = n * 10 + (c.val - 48) :=
      Nat.mod_eq_of_lt (by norm_num; omega)
    rw [parseUintLoop_cons_some c cs n _ (digitOf_of_isDigit c hd.1), hmod, maxUint64_eq,
      if_neg (by omega), if_neg (by omega), if_neg (by omega)]
    exact ih _ hd.2 (by rw [maxUint64_eq]; exact hb)

theorem parseUintLoop_range (ds : List Byte) (n : Nat) (hd : ds.all isDigit = true)
    (hn : n ≤ maxUint64) (hb : maxUint64 < digitsFrom n ds) :
    parseUintLoop ds n = (maxUint64, some NumError.ErrRange) := by
  induction ds generalizing n with
  | nil => exact absurd hb (Nat.not_lt.mpr hn)
  | cons c cs ih =>
    rw [List.all_cons, Bool.and_eq_true] at hd
    rw [digitsFrom_cons] at hb
    have hc := hd.1
    simp only [isDigit, Bool.and_eq_true, decide_eq_true_eq] at hc
    rw [parseUintLoop_cons_some c cs n _ (digitOf_of_isDigit c hd.1), if_neg (by omega)]
    by_cases h1 : n ≥ maxUint64 / 10 + 1
    · rw [if_pos h1]
    · rw [if_neg h1]
      rw [maxUint64_eq] at h1
      by_cases h2 : n * 10 + (c.val - 48) ≤ 18446744073709551615
      · have hmod : (n * 10 + (c.val - 48)) % 2 ^ 64 = n * 10 + (c.val - 48) :=
          Nat.mod_eq_of_lt (by norm_num; omega)
        rw [hmod, if_neg (by rw [maxUint64_eq]; omega)]
        exact ih _ hd.2 (by rw [maxUint64_eq]; exact h2) hb
      · have hmod : (n * 10 + (c.val - 48)) % 2 ^ 64 < n * 10 := by
          norm_num
          omega
        rw [if_pos (Or.inl hmod)]

theorem parseUintLoop_bad (ds : List Byte) (n k : Nat) (hd : ds.all isDigit = false)
    (hn : n < 10 ^ k) (hk : k + ds.length ≤ 20) :
    parseUintLoop ds n = (0, some NumError.ErrSyntax) := by
  induction ds generalizing n k with
  | nil => simp at hd
  | cons c cs ih =>
    cases hc : isDigit c with
    | false =>
      rcases digitOf_of_not_isDigit c hc with h | ⟨d, hd10, h⟩
      · exact parseUintLoop_cons_none c cs n h
      · rw [parseUintLoop_cons_some c cs n d h, if_pos hd10]
    | true =>
      rw [List.all_cons, hc, Bool.true_and] at hd
      have hlen : 1 ≤ cs.length := by
        cases cs with
        | nil => simp at hd
        | cons _ _ => simp
      simp only [List.length_cons] at hk
      have hk18 : k ≤ 18 := by omega
      have h18 : (10:Nat) ^ k ≤ 10 ^ 18 := Nat.pow_le_pow_right (by norm_num) hk18
      have hn18 : n < 1000000000000000000 := by
        have : (10:Nat) ^ 18 = 1000000000000000000 := by norm_num
        omega
      have hcd := hc
      simp only [isDigit, Bool.and_eq_true, decide_eq_true_eq] at hcd
      have hmod : (n * 10 + (c.val - 48)) % 2 ^ 64 = n * 10 + (c.val - 48) :=
        Nat.mod_eq_of_lt (by norm_num; omega)
      rw [parseUintLoop_cons_some c cs n _ (digitOf_of_isDigit c hc), hmod, maxUint64_eq,
        if_neg (by omega), if_neg (by omega), if_neg (by omega)]
      refine ih _ (k + 1) hd ?_ (by omega)
      rw [Nat.pow_succ]
      omega

theorem parseUintLoop_bad_cases (ds : List Byte) (n : Nat) (hd : ds.all isDigit = false) :
    parseUintLoop ds n = (0, some NumError.ErrSyntax) ∨
    parseUintLoop ds n = (maxUint64, some NumError.ErrRange) := by
  induction ds generalizing n with
  | nil => simp at hd
  | cons c cs ih =>
    cases hc : isDigit c with
    | false =>
      rcases digitOf_of_not_isDigit c hc with h | ⟨d, hd10, h⟩
      · exact Or.inl (parseUintLoop_cons_none c cs n h)
      · rw [parseUintLoop_cons_some c cs n d h, if_pos hd10]; exact Or.inl rfl
    | true =>
      rw [List.all_cons, hc, Bool.true_and] at hd
      rw [parseUintLoop_cons_some c cs n _ (digitOf_of_isDigit c hc)]
      split
      · exact Or.inl rfl
      · split
        · exact Or.inr rfl
        · split
          · exact Or.inr rfl
          · exact ih _ hd

/-- What `ParseUint` returns, by the numeral the bytes spell. -/
theorem ParseUint_of_value (ds : List Byte) (v : Nat) (h : unsignedValue ds = some v) :
    ParseUint ds = if v ≤ maxUint64 then (v, none) else (maxUint64, some NumError.ErrRange) := by
  unfold unsignedValue at h
  split at h
  · rename_i hds
    cases h
    unfold ParseUint
    rw [if_neg hds.1]
    by_cases hv : digitsFrom 0 ds ≤ maxUint64
    · rw [if_pos hv, parseUintLoop_exact ds 0 hds.2 hv]
    · rw [if_neg hv]
      exact parseUintLoop_range ds 0 hds.2 (Nat.zero_le _) (Nat.lt_of_not_le hv)
  · cases h

theorem ParseUint_of_none (ds : List Byte) (h : unsignedValue ds = none) :
    (ds.length ≤ 20 → ParseUint ds = (0, some NumError.ErrSyntax)) ∧
    (ParseUint ds = (0, some NumError.ErrSyntax) ∨
      ParseUint ds = (maxUint64, some NumError.ErrRange)) := by
  unfold unsignedValue at h
  split at h
  · cases h
  · rename_i hds
    unfold ParseUint
    by_cases hnil : ds = []
    · rw [if_pos hnil]
      exact ⟨fun _ => rfl, Or.inl rfl⟩
    · rw [if_neg hnil]
      have hall : ds.all isDigit = false := by
        cases hb : ds.all isDigit with
        | false => rfl
        | true => exact absurd ⟨hnil, hb⟩ hds
      exact ⟨fun hlen => parseUintLoop_bad ds 0 0 hall (by norm_num) (by omega),
        parseUintLoop_bad_cases ds 0 hall⟩


theorem wrapInt64_of_range (x : Int) (h1 : -9223372036854775808 ≤ x)
    (h2 : x ≤ 9223372036854775807) : wrapInt64 x = x := by
  unfold wrapInt64
  norm_num
  omega

theorem wrapInt64_neg_wrap (un : Nat) (h : un ≤ 9223372036854775808) :
    wrapInt64 (-(wrapInt64 (un : Int))) = -(un : Int) := by
  unfold wrapInt64
  norm_num
  omega

theorem ParseInt_cons (c : Byte) (cs : List Byte) (un : Nat) (err : Option NumError)
    (hp : ParseUint (if c.val = 43 ∨ c.val = 45 then cs else c :: cs) = (un, err)) :
    ParseInt (c :: cs) =
      if err = some NumError.ErrSyntax then (0, err)
      else if ¬ c.val = 45 ∧ un ≥ 2 ^ 63 then (2 ^ 63 - 1, some NumError.ErrRange)
      else if c.val = 45 ∧ un > 2 ^ 63 then (-(2 ^ 63), some NumError.ErrRange)
      else (if c.val = 45 then wrapInt64 (-(wrapInt64 (un : Int))) else wrapInt64 (un : Int),
            none) := by
  simp [ParseInt, hp]

/-- The post-processing of `ParseInt` on the magnitude of a numeral. -/
theorem ParseInt_of_magnitude (c : Byte) (cs : List Byte) (n : Nat)
    (hu : unsignedValue (if c.val = 43 ∨ c.val = 45 then cs else c :: cs) = some n) :
    ParseInt (c :: cs) =
      (clampInt64 (if c.val = 45 then -(n : Int) else (n : Int)),
       if minInt64 ≤ (if c.val = 45 then -(n : Int) else (n : Int)) ∧
          (if c.val = 45 then -(n : Int) else (n : Int)) ≤ maxInt64
       then none else some NumError.ErrRange) := by
  have hmax : maxInt64 = 9223372036854775807 := by norm_num [maxInt64]
  have hmin : minInt64 = -9223372036854775808 := by norm_num [minInt64]
  have hp := ParseUint_of_value _ n hu
  rw [maxUint64_eq] at hp
  have h63 : (2:Nat) ^ 63 = 9223372036854775808 := by norm_num
  have h63i : (2:Int) ^ 63 = 9223372036854775808 := by norm_num
  by_cases hn : n ≤ 18446744073709551615
  · rw [if_pos hn] at hp
    rw [ParseInt_cons c cs n none hp, clampInt64, hmax, hmin, h63, h63i]
    by_cases h45 : c.val = 45
    · by_cases hn2 : n ≤ 9223372036854775808
      · rw [wrapInt64_neg_wrap n hn2]
        simp only [h45, if_true, reduceCtorEq, if_false, not_true, false_and, true_and]
        split_ifs <;> first | (exfalso; omega) | norm_num
      · simp only [h45, if_true, reduceCtorEq, if_false, not_true, false_and, true_and]
        split_ifs <;> first | (exfalso; omega) | norm_num
    · by_cases hn2 : n ≤ 9223372036854775807
      · rw [wrapInt64_of_range (n : Int) (by omega) (by omega)]
        simp only [h45, if_false, reduceCtorEq, not_false_eq_true, false_and, true_and]
        split_ifs <;> first | (exfalso; omega) | norm_num
      · simp only [h45, if_false, reduceCtorEq, not_false_eq_true, false_and, true_and]
        split_ifs <;> first | (exfalso; omega) | norm_num
  · rw [if_neg hn] at hp
    rw [ParseInt_cons c cs _ _ hp, clampInt64, hmax, hmin, h63, h63i]
    by_cases h45 : c.val = 45
    · simp only [h45, if_true, reduceCtorEq, if_false, not_true, false_and, true_and,
        Option.some.injEq]
      split_ifs <;> first | (exfalso; omega) | norm_num
    · simp only [h45, if_false, reduceCtorEq, not_false_eq_true, false_and, true_and,
        Option.some.injEq]
      split_ifs <;> first | (exfalso; omega) | norm_num

/-- What `ParseInt` returns on an integer string: its value when that is an
`int64`, the nearest bound and a range error otherwise. -/
theorem ParseInt_of_value (s : List Byte) (v : Int) (h : decimalValue s = some v) :
    ParseInt s =
      (clampInt64 v, if minInt64 ≤ v ∧ v ≤ maxInt64 then none else some NumError.ErrRange) := by
  cases s with
  | nil => simp [decimalValue] at h
  | cons c cs =>
    rw [decimalValue] at h
    by_cases h43 : c.val = 43
    · rw [if_pos h43] at h
      cases hu : unsignedValue cs with
      | none => rw [hu] at h; cases h
      | some n =>
        rw [hu] at h
        simp only [withSign, Option.some.injEq] at h
        have h45 : ¬ c.val = 45 := by omega
        have := ParseInt_of_magnitude c cs n (by rw [if_pos (Or.inl h43)]; exact hu)
        rw [if_neg h45] at this
        rw [this, ← h]
        simp
    · rw [if_neg h43] at h
      by_cases h45 : c.val = 45
      · rw [if_pos h45] at h
        cases hu : unsignedValue cs with
        | none => rw [hu] at h; cases h
        | some n =>
          rw [hu] at h
          simp only [withSign, Option.some.injEq] at h
          have := ParseInt_of_magnitude c cs n (by rw [if_pos (Or.inr h45)]; exact hu)
          rw [if_pos h45] at this
          rw [this, ← h]
          simp
      · rw [if_neg h45] at h
        cases hu : unsignedValue (c :: cs) with
        | none => rw [hu] at h; cases h
        | some n =>
          rw [hu] at h
          simp only [withSign, Option.some.injEq] at h
          have := ParseInt_of_magnitude c cs n (by rw [if_neg (by tauto)]; exact hu)
          rw [if_neg h45] at this
          rw [this, ← h]
          simp

/-- What `ParseInt` returns on a byte string that is not an integer string: a
syntax error when the string has at most 20 bytes, and otherwise either that
or a range error with a bound of `int64`. -/
theorem ParseInt_of_none (s : List Byte) (h : decimalValue s = none) :
    (s.length ≤ 20 → ParseInt s = (0, some NumError.ErrSyntax)) ∧
    (ParseInt s = (0, some NumError.ErrSyntax) ∨
      ParseInt s = (maxInt64, some NumError.ErrRange) ∨
      ParseInt s = (minInt64, some NumError.ErrRange)) := by
  cases s with
  | nil => exact ⟨fun _ => rfl, Or.inl rfl⟩
  | cons c cs =>
    have hmax : maxInt64 = 9223372036854775807 := by norm_num [maxInt64]
    have hmin : minInt64 = -9223372036854775808 := by norm_num [minInt64]
    have h63 : (2:Nat) ^ 63 = 9223372036854775808 := by norm_num
    have h63i : (2:Int) ^ 63 = 9223372036854775808 := by norm_num
    have hu : unsignedValue (if c.val = 43 ∨ c.val = 45 then cs else c :: cs) = none := by
      rw [decimalValue] at h
      by_cases h43 : c.val = 43
      · rw [if_pos h43] at h
        rw [if_pos (Or.inl h43)]
        cases hu : unsignedValue cs with
        | none => rfl
        | some n => rw [hu] at h; cases h
      · rw [if_neg h43] at h
        by_cases h45 : c.val = 45
        · rw [if_pos h45] at h
          rw [if_pos (Or.inr h45)]
          cases hu : unsignedValue cs with
          | none => rfl
          | some n => rw [hu] at h; cases h
        · rw [if_neg h45] at h
          rw [if_neg (by tauto)]
          cases hu : unsignedValue (c :: cs) with
          | none => rfl
          | some n => rw [hu] at h; cases h
    have hlen : (if c.val = 43 ∨ c.val = 45 then cs else c :: cs).length ≤ (c :: cs).length := by
      split <;> simp
    obtain ⟨hshort, hcases⟩ := ParseUint_of_none _ hu
    refine ⟨fun hl => ?_, ?_⟩
    · rw [ParseInt_cons c cs _ _ (hshort (Nat.le_trans hlen hl)), if_pos rfl]
    · rcases hcases with hp | hp
      · left
        rw [ParseInt_cons c cs _ _ hp, if_pos rfl]
      · right
        rw [ParseInt_cons c cs _ _ hp, maxUint64_eq, hmax, hmin, h63, h63i]
        by_cases h45 : c.val = 45
        · right
          simp only [h45, if_true, reduceCtorEq, if_false, not_true, false_and, true_and,
            Option.some.injEq]
          split_ifs <;> first | (exfalso; omega) | norm_num
        · left
          simp only [h45, if_false, reduceCtorEq, not_false_eq_true, false_and, true_and,
            Option.some.injEq]
          split_ifs <;> first | (exfalso; omega) | norm_num


theorem byte_sub_48 (ch : Byte) :
    (isDigit ch = false → (ch - 48 : Byte).val > 9) ∧
    (isDigit ch = true → (ch - 48 : Byte).val ≤ 9 ∧ (ch - 48 : Byte).val = ch.val - 48) := by
  have hsub : (ch - 48 : Byte).val = (256 - 48 + ch.val) % 256 := Fin.coe_sub ch 48
  have hlt := ch.isLt
  rw [hsub]
  simp only [isDigit, Bool.and_eq_true, decide_eq_true_eq, Bool.and_eq_false_iff,
    decide_eq_false_iff_not]
  omega

theorem digitsFrom_lt (ds : List Byte) (n k : Nat) (hd : ds.all isDigit = true)
    (hn : n < 10 ^ k) : digitsFrom n ds < 10 ^ (k + ds.length) := by
  induction ds generalizing n k with
  | nil => simpa [digitsFrom] using hn
  | cons c cs ih =>
    rw [List.all_cons, Bool.and_eq_true] at hd
    have hc := hd.1
    simp only [isDigit, Bool.and_eq_true, decide_eq_true_eq] at hc
    rw [digitsFrom_cons]
    have := ih (n * 10 + (c.val - 48)) (k + 1) hd.2 (by rw [Nat.pow_succ]; omega)
    simpa [Nat.add_assoc, Nat.add_comm 1] using this

theorem atoiFastLoop_digits (ds : List Byte) (n k : Nat) (hd : ds.all isDigit = true)
    (hn : n < 10 ^ k) (hk : k + ds.length ≤ 18) :
    atoiFastLoop ds (n : Int) = some ((digitsFrom n ds : Nat) : Int) := by
  induction ds generalizing n k with
  | nil => rfl
  | cons c cs ih =>
    rw [List.all_cons, Bool.and_eq_true] at hd
    obtain ⟨h9, hval⟩ := (byte_sub_48 c).2 hd.1
    simp only [List.length_cons] at hk
    have h17 : (10:Nat) ^ k ≤ 10 ^ 17 := Nat.pow_le_pow_right (by norm_num) (by omega)
    have hn17 : n < 100000000000000000 := by
      have : (10:Nat) ^ 17 = 100000000000000000 := by norm_num
      omega
    have hc := hd.1
    simp only [isDigit, Bool.and_eq_true, decide_eq_true_eq] at hc
    rw [atoiFastLoop]
    rw [if_neg (by omega), hval]
    have hw : wrapInt64 ((n : Int) * 10 + Int.ofNat (c.val - 48)) =
        ((n * 10 + (c.val - 48) : Nat) : Int) := by
      rw [wrapInt64_of_range _ (by simp only [Int.ofNat_eq_coe]; omega)
        (by simp only [Int.ofNat_eq_coe]; omega)]
      simp
    rw [hw, digitsFrom_cons]
    exact ih _ (k + 1) hd.2 (by rw [Nat.pow_succ]; omega) (by omega)

theorem atoiFastLoop_bad (ds : List Byte) (n : Int) (hd : ds.all isDigit = false) :
    atoiFastLoop ds n = none := by
  induction ds generalizing n with
  | nil => simp at hd
  | cons c cs ih =>
    rw [atoiFastLoop]
    cases hc : isDigit c with
    | false => rw [if_pos ((byte_sub_48 c).1 hc)]
    | true =>
      rw [List.all_cons, hc, Bool.true_and] at hd
      rw [if_neg (by have := ((byte_sub_48 c).2 hc).1; omega)]
      exact ih _ hd


theorem atoiFast_cons (c : Byte) (cs : List Byte) :
    atoiFast (c :: cs) =
      if (c.val = 45 ∨ c.val = 43) ∧ (if c.val = 45 ∨ c.val = 43 then cs else c :: cs).length < 1
      then (0, some NumError.ErrSyntax)
      else
        match atoiFastLoop (if c.val = 45 ∨ c.val = 43 then cs else c :: cs) 0 with
        | none => (0, some NumError.ErrSyntax)
        | some n => (if c.val = 45 then wrapInt64 (-n) else n, none) := by
  simp [atoiFast]

/-- On the strings it is taken for, the fast path of `Atoi` returns what
`ParseInt` returns. -/
theorem atoiFast_eq_ParseInt (s : List Byte) (h0 : 0 < s.length) (h19 : s.length < 19) :
    atoiFast s = ParseInt s := by
  cases s with
  | nil => simp at h0
  | cons c cs =>
    have hmax : maxInt64 = 9223372036854775807 := by norm_num [maxInt64]
    have hmin : minInt64 = -9223372036854775808 := by norm_num [minInt64]
    have hor : (c.val = 45 ∨ c.val = 43) ↔ (c.val = 43 ∨ c.val = 45) := Or.comm
    have hbody : (if c.val = 45 ∨ c.val = 43 then cs else c :: cs) =
        (if c.val = 43 ∨ c.val = 45 then cs else c :: cs) := by
      simp only [hor]
    rw [atoiFast_cons, hbody]
    generalize hb : (if c.val = 43 ∨ c.val = 45 then cs else c :: cs) = body
    have hlen : body.length ≤ 18 := by
      rw [← hb]
      simp only [List.length_cons] at h19
      split <;> first | omega | (simp only [List.length_cons]; omega)
    cases hu : unsignedValue body with
    | none =>
      have hp := (ParseUint_of_none body hu).1 (by omega)
      rw [ParseInt_cons c cs 0 (some NumError.ErrSyntax) (by rw [hb]; exact hp), if_pos rfl]
      unfold unsignedValue at hu
      by_cases hnil : body = []
      · subst hnil
        by_cases hs : c.val = 45 ∨ c.val = 43
        · rw [if_pos ⟨hs, by simp⟩]
        · rw [if_neg (fun h => hs h.1)]
          rw [if_neg (fun h => hs (hor.mpr h))] at hb
          cases hb
      · have hall : body.all isDigit = false := by
          cases hbb : body.all isDigit with
          | false => rfl
          | true => rw [if_pos ⟨hnil, hbb⟩] at hu; cases hu
        rw [atoiFastLoop_bad body 0 hall]
        split <;> rfl
    | some n =>
      have hm := ParseInt_of_magnitude c cs n (by rw [hb]; exact hu)
      unfold unsignedValue at hu
      split at hu
      · rename_i hds
        cases hu
        have hlt := digitsFrom_lt body 0 0 hds.2 (by norm_num)
        have h18 : (10:Nat) ^ (0 + body.length) ≤ 10 ^ 18 :=
          Nat.pow_le_pow_right (by norm_num) (by omega)
        have hn18 : digitsFrom 0 body < 1000000000000000000 := by
          have : (10:Nat) ^ 18 = 1000000000000000000 := by norm_num
          omega
        have hloop := atoiFastLoop_digits body 0 0 hds.2 (by norm_num) (by omega)
        have hpos : 0 < body.length := List.length_pos.mpr hds.1
        rw [hm, if_neg (fun h => by omega)]
        simp only [Nat.cast_zero] at hloop
        rw [hloop, clampInt64, hmax, hmin]
        by_cases h45 : c.val = 45
        · simp only [h45, if_true]
          rw [wrapInt64_of_range _ (by omega) (by omega)]
          split_ifs <;> first | (exfalso; omega) | rfl
        · simp only [h45, if_false]
          split_ifs <;> first | (exfalso; omega) | rfl
      · cases hu

/-- Function `Atoi` returns what `ParseInt` returns on the bytes of the string. -/
theorem Atoi_eq_ParseInt (s : String) : Atoi s = ParseInt (utf8 s) := by
  unfold Atoi
  simp only []
  split
  · rename_i h
    exact atoiFast_eq_ParseInt _ h.1 h.2
  · rfl

/-! ## The response writer -/

theorem jsonResponse_status (w : ResponseWriter) (d : CompressResponse) (code : Nat)
    (hw : w.status = none) : (jsonResponse w d code).status = some code := by
  simp [jsonResponse, ResponseWriter.Write, ResponseWriter.WriteHeader,
    ResponseWriter.setHeader, hw]

theorem jsonResponse_body (w : ResponseWriter) (d : CompressResponse) (code : Nat) :
    (jsonResponse w d code).body = w.body ++ [Chunk.json (marshal d)] := by
  simp only [jsonResponse, ResponseWriter.Write, ResponseWriter.WriteHeader,
    ResponseWriter.setHeader]
  cases w.status <;> rfl

theorem jsonResponse_aborted (w : ResponseWriter) (d : CompressResponse) (code : Nat) :
    (jsonResponse w d code).aborted = w.aborted := by
  simp only [jsonResponse, ResponseWriter.Write, ResponseWriter.WriteHeader,
    ResponseWriter.setHeader]
  cases w.status <;> rfl

theorem httpError_status (w : ResponseWriter) (msg : String) (code : Nat)
    (hw : w.status = none) : (httpError w msg code).status = some code := by
  simp [httpError, ResponseWriter.Write, ResponseWriter.WriteHeader,
    ResponseWriter.setHeader, hw]

theorem httpError_aborted (w : ResponseWriter) (msg : String) (code : Nat) :
    (httpError w msg code).aborted = w.aborted := by
  simp only [httpError, ResponseWriter.Write, ResponseWriter.WriteHeader,
    ResponseWriter.setHeader]
  cases w.status <;> rfl

/-! ## The paths through `handleCompress` -/

section Paths

variable {Img : Type} (env : Env Img) (r : Request) (w : ResponseWriter) (σ : World)

theorem handleCompress_method (h : r.Method ≠ "POST") :
    handleCompress env r w σ = (httpError w "Method not allowed" 405, σ) := by
  simp [handleCompress, h]

theorem handleCompress_upload (hm : r.Method = "POST") (hf : r.FormFile "image" = none) :
    handleCompress env r w σ =
      (jsonResponse w { Success := false, Message := "Failed to upload image" } 400,
       afterForm σ) := by
  simp [handleCompress, hm, hf, afterForm]

theorem handleCompress_decode (u : Upload) (err : String) (hm : r.Method = "POST")
    (hf : r.FormFile "image" = some u)
    (hd : imageDecode (registeredFormats env) u.content = Except.error err) :
    handleCompress env r w σ =
      (jsonResponse w
        { Success := false, Message := "Unsupported image format: " ++ err } 400,
       (afterForm σ).log Event.decode) := by
  simp [handleCompress, hm, hf, hd, afterForm]

theorem handleCompress_create (u : Upload) (img : Img) (fmt : String)
    (hm : r.Method = "POST") (hf : r.FormFile "image" = some u)
    (hd : imageDecode (registeredFormats env) u.content = Except.ok (img, fmt))
    (hc : env.createFails (outPath env.now) = true) :
    handleCompress env r w σ =
      (jsonResponse w { Success := false, Message := "Failed to create output file" } 500,
       ((afterForm σ).log Event.decode).log (Event.create (outPath env.now))) := by
  simp only [outPath] at hc
  simp [handleCompress, hm, hf, hd, hc, afterForm, outPath]

theorem handleCompress_encode (u : Upload) (img : Img) (fmt : String) (e : String)
    (hm : r.Method = "POST") (hf : r.FormFile "image" = some u)
    (hd : imageDecode (registeredFormats env) u.content = Except.ok (img, fmt))
    (hc : env.createFails (outPath env.now) = false)
    (he : (env.jpegEncode img (quality (r.FormValue "quality"))).2 = some e) :
    handleCompress env r w σ =
      (jsonResponse w { Success := false, Message := "Compression failed" } 500,
       afterEncode σ (outPath env.now) (quality (r.FormValue "quality"))
         (env.jpegEncode img (quality (r.FormValue "quality"))).1) := by
  simp only [outPath] at hc
  simp [handleCompress, hm, hf, hd, hc, he, afterForm, afterEncode, outPath]

theorem handleCompress_ok (u : Upload) (img : Img) (fmt : String)
    (hm : r.Method = "POST") (hf : r.FormFile "image" = some u)
    (hd : imageDecode (registeredFormats env) u.content = Except.ok (img, fmt))
    (hc : env.createFails (outPath env.now) = false)
    (he : (env.jpegEncode img (quality (r.FormValue "quality"))).2 = none) :
    handleCompress env r w σ =
      (jsonResponse w
        { Success := true,
          OriginalSize := u.Size,
          CompressedSize :=
            Int.ofNat (env.jpegEncode img (quality (r.FormValue "quality"))).1.length,
          Savings := savings
            (Int.ofNat (env.jpegEncode img (quality (r.FormValue "quality"))).1.length) u.Size,
          DownloadURL := downloadURL (env.getenv "ALLOWED_ORIGIN") (outFilename env.now),
          Format := fmt } 200,
       (afterEncode σ (outPath env.now) (quality (r.FormValue "quality"))
         (env.jpegEncode img (quality (r.FormValue "quality"))).1).log
         (Event.stat (outPath env.now))) := by
  simp only [outPath] at hc
  simp [handleCompress, hm, hf, hd, hc, he, afterForm, afterEncode, outPath, World.write,
    World.log]

end Paths

/-! ## Status and payload of `handleCompress` -/

theorem handleCompress_200_iff {Img : Type} (env : Env Img) (r : Request)
    (w : ResponseWriter) (σ : World) (hw : w.status = none) :
    (handleCompress env r w σ).1.status = some 200 ↔
      r.Method = "POST" ∧ ∃ u img fmt, r.FormFile "image" = some u ∧
        imageDecode (registeredFormats env) u.content = Except.ok (img, fmt) ∧
        env.createFails (outPath env.now) = false ∧
        (env.jpegEncode img (quality (r.FormValue "quality"))).2 = none := by
  by_cases hm : r.Method = "POST"
  swap
  · rw [handleCompress_method env r w σ hm, httpError_status w _ _ hw]
    exact ⟨fun h => absurd h (by decide), fun h => absurd h.1 hm⟩
  cases hf : r.FormFile "image" with
  | none =>
    rw [handleCompress_upload env r w σ hm hf, jsonResponse_status w _ _ hw]
    refine ⟨fun h => absurd h (by decide), ?_⟩
    rintro ⟨_, u, _, _, hu, _⟩
    cases hu
  | some u =>
    cases hd : imageDecode (registeredFormats env) u.content with
    | error err =>
      rw [handleCompress_decode env r w σ u err hm hf hd, jsonResponse_status w _ _ hw]
      refine ⟨fun h => absurd h (by decide), ?_⟩
      rintro ⟨_, u1, img, fmt, hu, hd1, _⟩
      cases hu
      rw [hd] at hd1
      cases hd1
    | ok p =>
      obtain ⟨img, fmt⟩ := p
      cases hc : env.createFails (outPath env.now) with
      | true =>
        rw [handleCompress_create env r w σ u img fmt hm hf hd hc,
          jsonResponse_status w _ _ hw]
        refine ⟨fun h => absurd h (by decide), ?_⟩
        rintro ⟨_, u1, img1, fmt1, hu, hd1, hc1, _⟩
        cases hc1
      | false =>
        cases he : (env.jpegEncode img (quality (r.FormValue "quality"))).2 with
        | some e =>
          rw [handleCompress_encode env r w σ u img fmt e hm hf hd hc he,
            jsonResponse_status w _ _ hw]
          refine ⟨fun h => absurd h (by decide), ?_⟩
          rintro ⟨_, u1, img1, fmt1, hu, hd1, _, he1⟩
          cases hu
          rw [hd] at hd1
          cases hd1
          rw [he] at he1
          cases he1
        | none =>
          rw [handleCompress_ok env r w σ u img fmt hm hf hd hc he,
            jsonResponse_status w _ _ hw]
          exact ⟨fun _ => ⟨hm, u, img, fmt, rfl, hd, rfl, he⟩, fun _ => rfl⟩

theorem handleCompress_aborted {Img : Type} (env : Env Img) (r : Request)
    (w : ResponseWriter) (σ : World) :
    (handleCompress env r w σ).1.aborted = w.aborted := by
  by_cases hm : r.Method = "POST"
  swap
  · rw [handleCompress_method env r w σ hm]
    exact httpError_aborted w _ _
  cases hf : r.FormFile "image" with
  | none =>
    rw [handleCompress_upload env r w σ hm hf]
    exact jsonResponse_aborted w _ _
  | some u =>
    cases hd : imageDecode (registeredFormats env) u.content with
    | error err =>
      rw [handleCompress_decode env r w σ u err hm hf hd]
      exact jsonResponse_aborted w _ _
    | ok p =>
      obtain ⟨img, fmt⟩ := p
      cases hc : env.createFails (outPath env.now) with
      | true =>
        rw [handleCompress_create env r w σ u img fmt hm hf hd hc]
        exact jsonResponse_aborted w _ _
      | false =>
        cases he : (env.jpegEncode img (quality (r.FormValue "quality"))).2 with
        | some e =>
          rw [handleCompress_encode env r w σ u img fmt e hm hf hd hc he]
          exact jsonResponse_aborted w _ _
        | none =>
          rw [handleCompress_ok env r w σ u img fmt hm hf hd hc he]
          exact jsonResponse_aborted w _ _

/-- Every run of `handleCompress` takes one of its six paths. -/
theorem handleCompress_cases {Img : Type} (env : Env Img) (r : Request)
    (w : ResponseWriter) (σ : World) :
    (r.Method ≠ "POST" ∧
      handleCompress env r w σ = (httpError w "Method not allowed" 405, σ)) ∨
    (r.Method = "POST" ∧ r.FormFile "image" = none ∧
      handleCompress env r w σ =
        (jsonResponse w { Success := false, Message := "Failed to upload image" } 400,
         afterForm σ)) ∨
    (∃ u err, r.Method = "POST" ∧ r.FormFile "image" = some u ∧
      imageDecode (registeredFormats env) u.content = Except.error err ∧
      handleCompress env r w σ =
        (jsonResponse w
          { Success := false, Message := "Unsupported image format: " ++ err } 400,
         (afterForm σ).log Event.decode)) ∨
    (∃ u img fmt, r.Method = "POST" ∧ r.FormFile "image" = some u ∧
      imageDecode (registeredFormats env) u.content = Except.ok (img, fmt) ∧
      env.createFails (outPath env.now) = true ∧
      handleCompress env r w σ =
        (jsonResponse w
          { Success := false, Message := "Failed to create output file" } 500,
         ((afterForm σ).log Event.decode).log (Event.create (outPath env.now)))) ∨
    (∃ u img fmt e, r.Method = "POST" ∧ r.FormFile "image" = some u ∧
      imageDecode (registeredFormats env) u.content = Except.ok (img, fmt) ∧
      env.createFails (outPath env.now) = false ∧
      (env.jpegEncode img (quality (r.FormValue "quality"))).2 = some e ∧
      handleCompress env r w σ =
        (jsonResponse w { Success := false, Message := "Compression failed" } 500,
         afterEncode σ (outPath env.now) (quality (r.FormValue "quality"))
           (env.jpegEncode img (quality (r.FormValue "quality"))).1)) ∨
    (∃ u img fmt, r.Method = "POST" ∧ r.FormFile "image" = some u ∧
      imageDecode (registeredFormats env) u.content = Except.ok (img, fmt) ∧
      env.createFails (outPath env.now) = false ∧
      (env.jpegEncode img (quality (r.FormValue "quality"))).2 = none ∧
      handleCompress env r w σ =
        (jsonResponse w
          { Success := true,
            OriginalSize := u.Size,
            CompressedSize :=
              Int.ofNat (env.jpegEncode img (quality (r.FormValue "quality"))).1.length,
            Savings := savings
              (Int.ofNat (env.jpegEncode img (quality (r.FormValue "quality"))).1.length)
              u.Size,
            DownloadURL := downloadURL (env.getenv "ALLOWED_ORIGIN") (outFilename env.now),
            Format := fmt } 200,
         (afterEncode σ (outPath env.now) (quality (r.FormValue "quality"))
           (env.jpegEncode img (quality (r.FormValue "quality"))).1).log
           (Event.stat (outPath env.now)))) := by
  by_cases hm : r.Method = "POST"
  swap
  · exact Or.inl ⟨hm, handleCompress_method env r w σ hm⟩
  cases hf : r.FormFile "image" with
  | none => exact Or.inr (Or.inl ⟨hm, rfl, handleCompress_upload env r w σ hm hf⟩)
  | some u =>
    cases hd : imageDecode (registeredFormats env) u.content with
    | error err =>
      exact Or.inr (Or.inr (Or.inl
        ⟨u, err, hm, rfl, hd, handleCompress_decode env r w σ u err hm hf hd⟩))
    | ok p =>
      obtain ⟨img, fmt⟩ := p
      cases hc : env.createFails (outPath env.now) with
      | true =>
        exact Or.inr (Or.inr (Or.inr (Or.inl
          ⟨u, img, fmt, hm, rfl, hd, rfl, handleCompress_create env r w σ u img fmt hm hf hd hc⟩)))
      | false =>
        cases he : (env.jpegEncode img (quality (r.FormValue "quality"))).2 with
        | some e =>
          exact Or.inr (Or.inr (Or.inr (Or.inr (Or.inl
            ⟨u, img, fmt, e, hm, rfl, hd, rfl, he,
              handleCompress_encode env r w σ u img fmt e hm hf hd hc he⟩))))
        | none =>
          exact Or.inr (Or.inr (Or.inr (Or.inr (Or.inr
            ⟨u, img, fmt, hm, rfl, hd, rfl, he,
              handleCompress_ok env r w σ u img fmt hm hf hd hc he⟩))))

/-- The `image.Decode` of this program fails on an empty stream: no magic
matches. -/
theorem imageDecode_empty {Img : Type} (env : Env Img) :
    imageDecode (registeredFormats env) [] = Except.error "image: unknown format" := by
  rfl

/-- A `stat` effect is new only on the success path, and then the image part
is not empty. -/
theorem handleCompress_stat_new {Img : Type} (env : Env Img) (r : Request)
    (w : ResponseWriter) (σ : World) (p : String)
    (hp : Event.stat p ∈ (handleCompress env r w σ).2.trace) :
    Event.stat p ∈ σ.trace ∨
      ∃ u img fmt, r.FormFile "image" = some u ∧
        imageDecode (registeredFormats env) u.content = Except.ok (img, fmt) := by
  rcases handleCompress_cases env r w σ with h | h | h | h | h | h
  · rw [h.2] at hp
    exact Or.inl hp
  · rw [h.2.2] at hp
    simp [afterForm, World.log] at hp
    exact Or.inl hp
  · obtain ⟨u, err, _, _, _, h⟩ := h
    rw [h] at hp
    simp [afterForm, World.log] at hp
    exact Or.inl hp
  · obtain ⟨u, img, fmt, _, _, _, _, h⟩ := h
    rw [h] at hp
    simp [afterForm, World.log] at hp
    exact Or.inl hp
  · obtain ⟨u, img, fmt, e, _, _, _, _, _, h⟩ := h
    rw [h] at hp
    simp [afterEncode, afterForm, World.log, World.write] at hp
    exact Or.inl hp
  · obtain ⟨u, img, fmt, _, hf, hd, _, _, _⟩ := h
    exact Or.inr ⟨u, img, fmt, hf, hd⟩

/-- An `encode` effect that is new carries the quality of lines 106-110. -/
theorem handleCompress_encode_new {Img : Type} (env : Env Img) (r : Request)
    (w : ResponseWriter) (σ : World) (q : Int)
    (hq : Event.encode q ∈ (handleCompress env r w σ).2.trace) :
    Event.encode q ∈ σ.trace ∨ q = quality (r.FormValue "quality") := by
  rcases handleCompress_cases env r w σ with h | h | h | h | h | h
  · rw [h.2] at hq
    exact Or.inl hq
  · rw [h.2.2] at hq
    simp [afterForm, World.log] at hq
    exact Or.inl hq
  · obtain ⟨u, err, _, _, _, h⟩ := h
    rw [h] at hq
    simp [afterForm, World.log] at hq
    exact Or.inl hq
  · obtain ⟨u, img, fmt, _, _, _, _, h⟩ := h
    rw [h] at hq
    simp [afterForm, World.log] at hq
    exact Or.inl hq
  · obtain ⟨u, img, fmt, e, _, _, _, _, _, h⟩ := h
    rw [h] at hq
    simp [afterEncode, afterForm, World.log, World.write] at hq
    tauto
  · obtain ⟨u, img, fmt, _, _, _, _, _, h⟩ := h
    rw [h] at hq
    simp [afterEncode, afterForm, World.log, World.write] at hq
    tauto

/-! ## The claims about `handleCompress` -/

/-- C2: the status `handleCompress` responds with is fixed by the first step
that fails: 405 when the method is not POST (and then nothing is parsed,
decoded or created: the world is left as it was), 400 when the `image` part is
missing or cannot be decoded, 500 when the output file cannot be created or
the encoder fails, and 200 exactly when none of these fail.  The handler
never panics. -/
theorem handleCompress_status {Img : Type} (env : Env Img) (r : Request)
    (w : ResponseWriter) (σ : World) (hw : w.status = none) :
    (r.Method ≠ "POST" →
      (handleCompress env r w σ).1.status = some 405 ∧
      (handleCompress env r w σ).2.trace = σ.trace ∧
      (handleCompress env r w σ).2.files = σ.files) ∧
    (r.Method = "POST" → r.FormFile "image" = none →
      (handleCompress env r w σ).1.status = some 400) ∧
    (∀ u err, r.Method = "POST" → r.FormFile "image" = some u →
      imageDecode (registeredFormats env) u.content = Except.error err →
      (handleCompress env r w σ).1.status = some 400) ∧
    (∀ u img fmt, r.Method = "POST" → r.FormFile "image" = some u →
      imageDecode (registeredFormats env) u.content = Except.ok (img, fmt) →
      env.createFails (outPath env.now) = true →
      (handleCompress env r w σ).1.status = some 500) ∧
    (∀ u img fmt e, r.Method = "POST" → r.FormFile "image" = some u →
      imageDecode (registeredFormats env) u.content = Except.ok (img, fmt) →
      env.createFails (outPath env.now) = false →
      (env.jpegEncode img (quality (r.FormValue "quality"))).2 = some e →
      (handleCompress env r w σ).1.status = some 500) ∧
    ((handleCompress env r w σ).1.status = some 200 ↔
      r.Method = "POST" ∧ ∃ u img fmt, r.FormFile "image" = some u ∧
        imageDecode (registeredFormats env) u.content = Except.ok (img, fmt) ∧
        env.createFails (outPath env.now) = false ∧
        (env.jpegEncode img (quality (r.FormValue "quality"))).2 = none) ∧
    (handleCompress env r w σ).1.aborted = w.aborted := by
  refine ⟨?_, ?_, ?_, ?_, ?_, ?_, ?_⟩
  · intro hm
    rw [handleCompress_method env r w σ hm]
    exact ⟨httpError_status w _ _ hw, rfl, rfl⟩
  · intro hm hf
    rw [handleCompress_upload env r w σ hm hf]
    exact jsonResponse_status w _ _ hw
  · intro u err hm hf hd
    rw [handleCompress_decode env r w σ u err hm hf hd]
    exact jsonResponse_status w _ _ hw
  · intro u img fmt hm hf hd hc
    rw [handleCompress_create env r w σ u img fmt hm hf hd hc]
    exact jsonResponse_status w _ _ hw
  · intro u img fmt e hm hf hd hc he
    rw [handleCompress_encode env r w σ u img fmt e hm hf hd hc he]
    exact jsonResponse_status w _ _ hw
  · exact handleCompress_200_iff env r w σ hw
  · exact handleCompress_aborted env r w σ

/-- C4: on every successful compression the JSON payload has `success` true,
`originalSize` the size recorded for the image part, `format` the name the
decoder returned, and `downloadUrl` the value of `ALLOWED_ORIGIN` followed by
`/download/` and the name of the file just written under `compressed`. -/
theorem handleCompress_success_payload {Img : Type} (env : Env Img) (r : Request)
    (w : ResponseWriter) (σ : World) (hw : w.status = none)
    (h200 : (handleCompress env r w σ).1.status = some 200) :
    ∃ u img fmt data, r.FormFile "image" = some u ∧
      imageDecode (registeredFormats env) u.content = Except.ok (img, fmt) ∧
      (handleCompress env r w σ).2.files
        (filepathJoin "compressed" (outFilename env.now)) = some data ∧
      (handleCompress env r w σ).1.body = w.body ++
        [Chunk.json
          [("success", JSONValue.bool true),
           ("message", JSONValue.str ""),
           ("originalSize", JSONValue.int u.Size),
           ("compressedSize", JSONValue.int (Int.ofNat data.length)),
           ("savings", JSONValue.num (savings (Int.ofNat data.length) u.Size)),
           ("downloadUrl", JSONValue.str
              (env.getenv "ALLOWED_ORIGIN" ++ "/download/" ++ outFilename env.now)),
           ("format", JSONValue.str fmt)]] := by
  obtain ⟨hm, u, img, fmt, hf, hd, hc, he⟩ := (handleCompress_200_iff env r w σ hw).mp h200
  refine ⟨u, img, fmt, (env.jpegEncode img (quality (r.FormValue "quality"))).1, hf, hd, ?_, ?_⟩
  · rw [handleCompress_ok env r w σ u img fmt hm hf hd hc he]
    simp [afterEncode, World.write, World.log, outPath]
  · rw [handleCompress_ok env r w σ u img fmt hm hf hd hc he, jsonResponse_body]
    rfl

/-- C5 (amended): when the upload fails (the form cannot be parsed, or it has no
`image` part) the response has status 400 and its JSON body has `success`
false, the upload-failure message, and every other member of
`CompressResponse` at its zero value: `originalSize`, `compressedSize`,
`savings`, `downloadUrl` and `format` are present, as 0, 0, 0, "" and "". -/
theorem handleCompress_upload_failure {Img : Type} (env : Env Img) (r : Request)
    (w : ResponseWriter) (σ : World) (hw : w.status = none) (hm : r.Method = "POST")
    (hf : r.MultipartFiles = none ∨
      ∃ fs, r.MultipartFiles = some fs ∧ ∀ e ∈ fs, e.1 ≠ "image") :
    (handleCompress env r w σ).1.status = some 400 ∧
    (handleCompress env r w σ).1.body = w.body ++
      [Chunk.json
        [("success", JSONValue.bool false),
         ("message", JSONValue.str "Failed to upload image"),
         ("originalSize", JSONValue.int 0),
         ("compressedSize", JSONValue.int 0),
         ("savings", JSONValue.num (Float64.ofInt 0)),
         ("downloadUrl", JSONValue.str ""),
         ("format", JSONValue.str "")]] ∧
    (handleCompress env r w σ).2.files = σ.files := by
  have hnone : r.FormFile "image" = none := by
    unfold Request.FormFile
    rcases hf with h | ⟨fs, h, hfs⟩
    · rw [h]
    · rw [h]
      have : fs.find? (fun e => decide (e.1 = "image")) = none := by
        rw [List.find?_eq_none]
        intro e he
        simpa using hfs e he
      simp [this]
  rw [handleCompress_upload env r w σ hm hnone]
  exact ⟨jsonResponse_status w _ _ hw, jsonResponse_body w _ _, rfl⟩

/-- C5 as stated fails: on a request without an `image` part the body of the
400 response does carry `originalSize`, `compressedSize`, `savings` and
`downloadUrl` members. -/
theorem upload_failure_body_has_size_fields :
    (handleCompress sampleEnv sampleNoImage ResponseWriter.fresh sampleWorld).1.status
      = some 400 ∧
    (handleCompress sampleEnv sampleNoImage ResponseWriter.fresh sampleWorld).1.body =
      [Chunk.json
        [("success", JSONValue.bool false),
         ("message", JSONValue.str "Failed to upload image"),
         ("originalSize", JSONValue.int 0),
         ("compressedSize", JSONValue.int 0),
         ("savings", JSONValue.num (Float64.ofInt 0)),
         ("downloadUrl", JSONValue.str ""),
         ("format", JSONValue.str "")]] ∧
    JSONObject.keys (marshal { Success := false, Message := "Failed to upload image" }) =
      ["success", "message", "originalSize", "compressedSize", "savings", "downloadUrl",
       "format"] := by
  refine ⟨by decide, by decide, by decide⟩

/-- C6: when the image part cannot be decoded, the response has status 400 and
its JSON body has `success` false and the message `Unsupported image format: `
followed by the text of the decoder error; the handler stops there: its
effects are the form parsing, the file lookup and one decode, and no file is
created or changed. -/
theorem handleCompress_decode_failure {Img : Type} (env : Env Img) (r : Request)
    (w : ResponseWriter) (σ : World) (u : Upload) (err : String) (hw : w.status = none)
    (hm : r.Method = "POST") (hf : r.FormFile "image" = some u)
    (hd : imageDecode (registeredFormats env) u.content = Except.error err) :
    (handleCompress env r w σ).1.status = some 400 ∧
    (handleCompress env r w σ).1.body = w.body ++
      [Chunk.json
        [("success", JSONValue.bool false),
         ("message", JSONValue.str ("Unsupported image format: " ++ err)),
         ("originalSize", JSONValue.int 0),
         ("compressedSize", JSONValue.int 0),
         ("savings", JSONValue.num (Float64.ofInt 0)),
         ("downloadUrl", JSONValue.str ""),
         ("format", JSONValue.str "")]] ∧
    (handleCompress env r w σ).2.trace = σ.trace ++
      [Event.parseMultipartForm 10485760, Event.formFile "image", Event.decode] ∧
    (handleCompress env r w σ).2.files = σ.files := by
  rw [handleCompress_decode env r w σ u err hm hf hd]
  refine ⟨jsonResponse_status w _ _ hw, jsonResponse_body w _ _, ?_, rfl⟩
  simp [afterForm, World.log]

/-! ## The quality handed to the encoder -/

theorem quality_of_value (s : String) (v : Int) (h : decimalValue (utf8 s) = some v) :
    quality s = if v < 1 then 75 else if maxInt64 < v then maxInt64 else v := by
  have hmax : maxInt64 = 9223372036854775807 := by norm_num [maxInt64]
  have hmin : minInt64 = -9223372036854775808 := by norm_num [minInt64]
  unfold quality
  rw [Atoi_eq_ParseInt, ParseInt_of_value _ v h]
  simp only [clampInt64, hmax, hmin]
  split_ifs <;> first | (exfalso; omega) | rfl

theorem quality_of_none (s : String) (h : decimalValue (utf8 s) = none) :
    ((utf8 s).length ≤ 20 → quality s = 75) ∧ (quality s = 75 ∨ quality s = maxInt64) := by
  have hmax : maxInt64 = 9223372036854775807 := by norm_num [maxInt64]
  have hmin : minInt64 = -9223372036854775808 := by norm_num [minInt64]
  obtain ⟨hshort, hcases⟩ := ParseInt_of_none _ h
  unfold quality
  rw [Atoi_eq_ParseInt]
  refine ⟨fun hl => ?_, ?_⟩
  · rw [hshort hl]
    rfl
  · rcases hcases with hp | hp | hp
    · rw [hp]
      exact Or.inl rfl
    · rw [hp, hmax]
      exact Or.inr rfl
    · rw [hp, hmin]
      exact Or.inl rfl

theorem FormValue_missing (r : Request) (key : String) (h : ∀ e ∈ r.Form, e.1 ≠ key) :
    r.FormValue key = "" := by
  unfold Request.FormValue
  have : r.Form.find? (fun e => decide (e.1 = key)) = none := by
    rw [List.find?_eq_none]
    intro e he
    simpa using h e he
  rw [this]

/-- C1 (amended): the quality handed to the JPEG encoder is the value computed
at lines 106-110 from the `quality` form field.  It is 75 when the field is
missing, when it is an integer string with a value below 1, and when it is not
an integer string and has at most 20 bytes.  It is exactly the value of the
integer string when that lies between 1 and 2^63-1 (so a value above 100 is
passed through unchanged), and it is 2^63-1 when the integer string has a
greater value. -/
theorem handleCompress_quality {Img : Type} (env : Env Img) (r : Request)
    (w : ResponseWriter) (σ : World) :
    (∀ q, Event.encode q ∉ σ.trace → Event.encode q ∈ (handleCompress env r w σ).2.trace →
      q = quality (r.FormValue "quality")) ∧
    (∀ u img fmt, r.Method = "POST" → r.FormFile "image" = some u →
      imageDecode (registeredFormats env) u.content = Except.ok (img, fmt) →
      env.createFails (outPath env.now) = false →
      Event.encode (quality (r.FormValue "quality")) ∈ (handleCompress env r w σ).2.trace) ∧
    ((∀ e ∈ r.Form, e.1 ≠ "quality") → quality (r.FormValue "quality") = 75) ∧
    (decimalValue (utf8 (r.FormValue "quality")) = none →
      (utf8 (r.FormValue "quality")).length ≤ 20 → quality (r.FormValue "quality") = 75) ∧
    (∀ v, decimalValue (utf8 (r.FormValue "quality")) = some v → v < 1 →
      quality (r.FormValue "quality") = 75) ∧
    (∀ v, decimalValue (utf8 (r.FormValue "quality")) = some v → 1 ≤ v → v ≤ maxInt64 →
      quality (r.FormValue "quality") = v) ∧
    (∀ v, decimalValue (utf8 (r.FormValue "quality")) = some v → maxInt64 < v →
      quality (r.FormValue "quality") = maxInt64) := by
  have hmax : maxInt64 = 9223372036854775807 := by norm_num [maxInt64]
  refine ⟨?_, ?_, ?_, ?_, ?_, ?_, ?_⟩
  · intro q hq hq1
    rcases handleCompress_encode_new env r w σ q hq1 with h | h
    · exact absurd h hq
    · exact h
  · intro u img fmt hm hf hd hc
    cases he : (env.jpegEncode img (quality (r.FormValue "quality"))).2 with
    | some e =>
      rw [handleCompress_encode env r w σ u img fmt e hm hf hd hc he]
      simp [afterEncode, World.log, World.write]
    | none =>
      rw [handleCompress_ok env r w σ u img fmt hm hf hd hc he]
      simp [afterEncode, World.log, World.write]
  · intro h
    rw [FormValue_missing r "quality" h]
    decide
  · intro h hl
    exact (quality_of_none _ h).1 hl
  · intro v h hv
    rw [quality_of_value _ v h, if_pos hv]
  · intro v h h1 h2
    rw [quality_of_value _ v h, if_neg (by omega), if_neg (by omega)]
  · intro v h h1
    rw [quality_of_value _ v h, if_neg (by rw [hmax] at h1; omega), if_pos h1]

/-- C1 as stated fails twice.  The field `99999999999999999999x` is not an
integer string, yet the encoder is handed 2^63-1 and not 75; the field
`9223372036854775808` is an integer string with value 2^63, yet the encoder
is handed 2^63-1 and not that value. -/
theorem quality_not_as_claimed :
    decimalValue (utf8 "99999999999999999999x") = none ∧
    Event.encode 9223372036854775807 ∈
      (handleCompress sampleEnv (sampleRequest "99999999999999999999x")
        ResponseWriter.fresh sampleWorld).2.trace ∧
    decimalValue (utf8 "9223372036854775808") = some 9223372036854775808 ∧
    Event.encode 9223372036854775807 ∈
      (handleCompress sampleEnv (sampleRequest "9223372036854775808")
        ResponseWriter.fresh sampleWorld).2.trace := by
  refine ⟨by decide, ?_, by decide, ?_⟩
  · have hq : quality "99999999999999999999x" = 9223372036854775807 := by decide
    rw [handleCompress_ok sampleEnv (sampleRequest "99999999999999999999x")
      ResponseWriter.fresh sampleWorld sampleUpload 5 "jpeg" rfl rfl rfl rfl rfl]
    simp [afterEncode, World.log, World.write, sampleRequest, Request.FormValue, hq]
  · have hq : quality "9223372036854775808" = 9223372036854775807 := by decide
    rw [handleCompress_ok sampleEnv (sampleRequest "9223372036854775808")
      ResponseWriter.fresh sampleWorld sampleUpload 5 "jpeg" rfl rfl rfl rfl rfl]
    simp [afterEncode, World.log, World.write, sampleRequest, Request.FormValue, hq]

/-! ## Empty uploads -/

theorem imageDecode_ok_nonempty {Img : Type} (env : Env Img) (content : List Byte)
    (img : Img) (fmt : String)
    (h : imageDecode (registeredFormats env) content = Except.ok (img, fmt)) :
    content ≠ [] := by
  intro hc
  rw [hc, imageDecode_empty] at h
  cases h

theorem Upload.content_of_Size_zero (u : Upload) (h : u.Size = 0) : u.content = [] := by
  unfold Upload.Size at h
  exact List.length_eq_zero.mp (Int.ofNat_eq_zero.mp h)

theorem Upload.Size_pos (u : Upload) (h : u.content ≠ []) : 0 < u.Size := by
  unfold Upload.Size
  exact Int.ofNat_lt.mpr (List.length_pos.mpr h)

/-- C10: a POST request whose image part is empty fails at the decode step
with status 400, because the empty stream matches no registered magic; so
whenever the handler answers 200, and whenever it reaches the `stat` of line
137 that precedes the savings computation, the original size is positive. -/
theorem handleCompress_empty_image {Img : Type} (env : Env Img) (r : Request)
    (w : ResponseWriter) (σ : World) (hw : w.status = none) :
    (∀ u, r.Method = "POST" → r.FormFile "image" = some u → u.Size = 0 →
      (handleCompress env r w σ).1.status = some 400 ∧
      (handleCompress env r w σ).1.body = w.body ++
        [Chunk.json (marshal
          { Success := false,
            Message := "Unsupported image format: image: unknown format" })]) ∧
    (sniff (registeredFormats env) []).isNone = true ∧
    ((handleCompress env r w σ).1.status = some 200 →
      ∃ u, r.FormFile "image" = some u ∧ 0 < u.Size) ∧
    (∀ p, Event.stat p ∉ σ.trace → Event.stat p ∈ (handleCompress env r w σ).2.trace →
      ∃ u, r.FormFile "image" = some u ∧ 0 < u.Size) := by
  refine ⟨?_, rfl, ?_, ?_⟩
  · intro u hm hf hz
    have hd : imageDecode (registeredFormats env) u.content =
        Except.error "image: unknown format" := by
      rw [Upload.content_of_Size_zero u hz]
      exact imageDecode_empty env
    rw [handleCompress_decode env r w σ u _ hm hf hd]
    exact ⟨jsonResponse_status w _ _ hw, jsonResponse_body w _ _⟩
  · intro h200
    obtain ⟨_, u, img, fmt, hf, hd, _, _⟩ := (handleCompress_200_iff env r w σ hw).mp h200
    exact ⟨u, hf, Upload.Size_pos u (imageDecode_ok_nonempty env _ img fmt hd)⟩
  · intro p hp hp1
    rcases handleCompress_stat_new env r w σ p hp1 with h | ⟨u, img, fmt, hf, hd⟩
    · exact absurd h hp
    · exact ⟨u, hf, Upload.Size_pos u (imageDecode_ok_nonempty env _ img fmt hd)⟩

/-! ## `enableCORS` and the routes -/

/-- C7: a handler wrapped by `enableCORS` answers an OPTIONS request by
setting the five cross-origin headers and writing the header with status 200,
without invoking the wrapped handler (the result does not depend on it and
the world is untouched); on the fresh writer of a request that is status
200, an empty body and the five headers sent.  For every other method it sets
the same five headers and then invokes the wrapped handler once, on the
writer that carries them. -/
theorem enableCORS_preflight {Img : Type} (env : Env Img) (next : Handler) (r : Request)
    (w : ResponseWriter) (σ : World) :
    (r.Method = "OPTIONS" →
      enableCORS env next r w σ = ((setCORSHeaders env w).WriteHeader 200, σ)) ∧
    (r.Method = "OPTIONS" →
      enableCORS env next r ResponseWriter.fresh σ =
        ({ header := (setCORSHeaders env ResponseWriter.fresh).header,
           status := some 200,
           sent := (setCORSHeaders env ResponseWriter.fresh).header,
           body := [],
           aborted := false }, σ)) ∧
    (r.Method ≠ "OPTIONS" →
      enableCORS env next r w σ = next r (setCORSHeaders env w) σ) ∧
    (setCORSHeaders env w).header.get "Access-Control-Allow-Origin" = allowedOrigin env ∧
    (setCORSHeaders env w).header.get "Access-Control-Allow-Methods" = "POST, GET, OPTIONS" ∧
    (setCORSHeaders env w).header.get "Access-Control-Allow-Headers" = "Content-Type" ∧
    (setCORSHeaders env w).header.get "Access-Control-Allow-Credentials" = "true" ∧
    (setCORSHeaders env w).header.get "Vary" = "Origin" ∧
    (setCORSHeaders env w).status = w.status ∧
    (setCORSHeaders env w).body = w.body := by
  refine ⟨?_, ?_, ?_, ?_, ?_, ?_, ?_, ?_, rfl, rfl⟩
  · intro h
    simp [enableCORS, h]
  · intro h
    simp [enableCORS, h, ResponseWriter.WriteHeader, setCORSHeaders,
      ResponseWriter.setHeader, ResponseWriter.fresh]
  · intro h
    simp [enableCORS, h]
  all_goals
    simp [setCORSHeaders, ResponseWriter.setHeader, Header.set, Header.get, List.find?,
      List.filter]

/-! ## Output names -/

theorem digitChar_toNat (k : Nat) (h : k < 10) : (Nat.digitChar k).toNat = 48 + k := by
  interval_cases k <;> rfl

theorem toDigitsCore_append (fuel n : Nat) (ds : List Char) :
    Nat.toDigitsCore 10 fuel n ds = Nat.toDigitsCore 10 fuel n [] ++ ds := by
  induction fuel generalizing n ds with
  | zero => rfl
  | succ f ih =>
    simp only [Nat.toDigitsCore]
    split
    · rfl
    · rw [ih (n / 10) (Nat.digitChar (n % 10) :: ds), ih (n / 10) [Nat.digitChar (n % 10)]]
      simp

theorem charsValue_append_singleton (l : List Char) (c : Char) :
    charsValue (l ++ [c]) = charsValue l * 10 + (c.toNat - 48) := by
  simp [charsValue, List.foldl_append]

theorem charsValue_toDigitsCore (fuel n : Nat) (h : n < fuel) :
    charsValue (Nat.toDigitsCore 10 fuel n []) = n := by
  induction fuel generalizing n with
  | zero => omega
  | succ f ih =>
    simp only [Nat.toDigitsCore]
    have hd := digitChar_toNat (n % 10) (Nat.mod_lt _ (by norm_num))
    split
    · rename_i h0
      simp only [charsValue, List.foldl_cons, List.foldl_nil, hd]
      omega
    · rename_i h0
      rw [toDigitsCore_append, charsValue_append_singleton, ih (n / 10) (by omega), hd]
      omega

theorem toDigitsCore_digits (fuel n : Nat) :
    ∀ c ∈ Nat.toDigitsCore 10 fuel n [], 48 ≤ c.toNat ∧ c.toNat ≤ 57 := by
  induction fuel generalizing n with
  | zero => intro c hc; simp [Nat.toDigitsCore] at hc
  | succ f ih =>
    intro c hc
    simp only [Nat.toDigitsCore] at hc
    have hd := digitChar_toNat (n % 10) (Nat.mod_lt _ (by norm_num))
    have hlt : n % 10 < 10 := Nat.mod_lt _ (by norm_num)
    split at hc
    · simp only [List.mem_singleton] at hc
      rw [hc, hd]
      omega
    · rw [toDigitsCore_append] at hc
      rcases List.mem_append.mp hc with h | h
      · exact ih _ c h
      · simp only [List.mem_singleton] at h
        rw [h, hd]
        omega

theorem Nat_repr_injective (a b : Nat) (h : Nat.repr a = Nat.repr b) : a = b := by
  unfold Nat.repr Nat.toDigits at h
  have hl : Nat.toDigitsCore 10 (a + 1) a [] = Nat.toDigitsCore 10 (b + 1) b [] := by
    simpa [List.asString] using congrArg String.data h
  have := congrArg charsValue hl
  rwa [charsValue_toDigitsCore _ _ (Nat.lt_succ_self a),
    charsValue_toDigitsCore _ _ (Nat.lt_succ_self b)] at this

theorem Nat_repr_digits (a : Nat) : ∀ c ∈ (Nat.repr a).data, 48 ≤ c.toNat ∧ c.toNat ≤ 57 := by
  intro c hc
  unfold Nat.repr Nat.toDigits at hc
  exact toDigitsCore_digits _ _ c (by simpa [List.asString] using hc)

/-- The characters of a rendered integer: digits, after at most one `-`. -/
theorem formatInt_chars (t : Int) :
    ∀ c ∈ (formatInt t).data, c = '-' ∨ (48 ≤ c.toNat ∧ c.toNat ≤ 57) := by
  intro c hc
  cases t with
  | ofNat m => exact Or.inr (Nat_repr_digits m c hc)
  | negSucc m =>
    simp only [formatInt, String.data_append, List.mem_append] at hc
    rcases hc with h | h
    · left
      simpa using h
    · exact Or.inr (Nat_repr_digits _ c h)

/-- Rendering with `%d` is injective. -/
theorem formatInt_injective (a b : Int) (h : formatInt a = formatInt b) : a = b := by
  cases a with
  | ofNat m =>
    cases b with
    | ofNat n => rw [Nat_repr_injective m n h]
    | negSucc n =>
      exfalso
      have hd := congrArg String.data h
      simp only [formatInt, String.data_append] at hd
      have hmem : '-' ∈ (Nat.repr m).data := by rw [hd]; simp
      have := Nat_repr_digits m '-' hmem
      revert this
      decide
  | negSucc m =>
    cases b with
    | ofNat n =>
      exfalso
      have hd := congrArg String.data h
      simp only [formatInt, String.data_append] at hd
      have hmem : '-' ∈ (Nat.repr n).data := by rw [← hd]; simp
      have := Nat_repr_digits n '-' hmem
      revert this
      decide
    | negSucc n =>
      have hd := congrArg String.data h
      simp only [formatInt, String.data_append] at hd
      have h2 : (Nat.repr (m + 1)).data = (Nat.repr (n + 1)).data :=
        List.append_cancel_left hd
      have h3 : Nat.repr (m + 1) = Nat.repr (n + 1) := String.ext h2
      have := Nat_repr_injective _ _ h3
      have hmn : m = n := by omega
      rw [hmn]

theorem last_segment_eq (A B F G : List Char) (hF : '/' ∉ F) (hG : '/' ∉ G)
    (h : A ++ '/' :: F = B ++ '/' :: G) : F = G := by
  rcases List.append_eq_append_iff.mp h with ⟨a, _, ha⟩ | ⟨c, _, hc⟩
  · cases a with
    | nil => simpa using ha
    | cons x xs =>
      exfalso
      simp only [List.cons_append, List.cons.injEq] at ha
      exact hF (by rw [ha.2]; simp)
  · cases c with
    | nil => simpa using hc.symm
    | cons x xs =>
      exfalso
      simp only [List.cons_append, List.cons.injEq] at hc
      exact hG (by rw [hc.2]; simp)

theorem outFilename_no_slash (t : Int) : '/' ∉ (outFilename t).data := by
  intro h
  simp only [outFilename, String.data_append, List.mem_append] at h
  rcases h with h | h
  · rcases formatInt_chars t '/' h with h1 | h1
    · revert h1; decide
    · revert h1; decide
  · revert h; decide

theorem outFilename_injective (a b : Int) (h : outFilename a = outFilename b) : a = b := by
  have hd := congrArg String.data h
  simp only [outFilename, String.data_append] at hd
  exact formatInt_injective a b (String.ext (List.append_cancel_right hd))

theorem outPath_injective (a b : Int) (h : outPath a = outPath b) : a = b := by
  have hd := congrArg String.data h
  simp only [outPath, filepathJoin, String.data_append] at hd
  exact outFilename_injective a b (String.ext (List.append_cancel_left hd))

theorem downloadURL_filename (o1 o2 f1 f2 : String) (h1 : '/' ∉ f1.data) (h2 : '/' ∉ f2.data)
    (h : downloadURL o1 f1 = downloadURL o2 f2) : f1 = f2 := by
  have hd := congrArg String.data h
  simp only [downloadURL, String.data_append] at hd
  have := last_segment_eq (o1.data ++ ['/', 'd', 'o', 'w', 'n', 'l', 'o', 'a', 'd'])
    (o2.data ++ ['/', 'd', 'o', 'w', 'n', 'l', 'o', 'a', 'd'])
    f1.data f2.data h1 h2 (by simpa [List.append_assoc] using hd)
  exact String.ext this

/-- The handler changes no file other than its own output path. -/
theorem handleCompress_frame {Img : Type} (env : Env Img) (r : Request)
    (w : ResponseWriter) (σ : World) (p : String) (hp : p ≠ outPath env.now) :
    (handleCompress env r w σ).2.files p = σ.files p := by
  rcases handleCompress_cases env r w σ with h | h | h | h | h | h
  · rw [h.2]
  · rw [h.2.2]
    rfl
  · obtain ⟨u, err, _, _, _, h⟩ := h
    rw [h]
    rfl
  · obtain ⟨u, img, fmt, _, _, _, _, h⟩ := h
    rw [h]
    rfl
  · obtain ⟨u, img, fmt, e, _, _, _, _, _, h⟩ := h
    rw [h]
    simp [afterEncode, afterForm, World.log, World.write, hp]
  · obtain ⟨u, img, fmt, _, _, _, _, _, h⟩ := h
    rw [h]
    simp [afterEncode, afterForm, World.log, World.write, hp]

/-- C9: the output file name is the decimal rendering of the clock reading in
nanoseconds followed by `.jpg` (a successful compression writes the file of
that name under `compressed`), and the naming is injective: two
compressions whose readings differ have different file names, different
output paths and different download URLs, and the second leaves the file of
the first as it was. -/
theorem outFilename_distinct {Img : Type} (env1 env2 : Env Img) (r1 r2 : Request)
    (w1 w2 : ResponseWriter) (σ : World) (o1 o2 : String) (h : env1.now ≠ env2.now) :
    outFilename env1.now = formatInt env1.now ++ ".jpg" ∧
    (∀ n : Nat, charsValue (formatInt (Int.ofNat n)).data = n) ∧
    (w1.status = none → (handleCompress env1 r1 w1 σ).1.status = some 200 →
      ∃ data, (handleCompress env1 r1 w1 σ).2.files
        ("compressed" ++ "/" ++ (formatInt env1.now ++ ".jpg")) = some data) ∧
    outFilename env1.now ≠ outFilename env2.now ∧
    outPath env1.now ≠ outPath env2.now ∧
    downloadURL o1 (outFilename env1.now) ≠ downloadURL o2 (outFilename env2.now) ∧
    (handleCompress env2 r2 w2 (handleCompress env1 r1 w1 σ).2).2.files (outPath env1.now) =
      (handleCompress env1 r1 w1 σ).2.files (outPath env1.now) := by
  have hname : outFilename env1.now ≠ outFilename env2.now :=
    fun he => h (outFilename_injective _ _ he)
  have hpath : outPath env1.now ≠ outPath env2.now :=
    fun he => h (outPath_injective _ _ he)
  refine ⟨rfl, ?_, ?_, hname, hpath, ?_, ?_⟩
  · intro n
    show charsValue (Nat.repr n).data = n
    unfold Nat.repr Nat.toDigits
    simpa [List.asString] using charsValue_toDigitsCore _ _ (Nat.lt_succ_self n)
  · intro hw h200
    obtain ⟨hm, u, img, fmt, hf, hd, hc, he⟩ :=
      (handleCompress_200_iff env1 r1 w1 σ hw).mp h200
    refine ⟨(env1.jpegEncode img (quality (r1.FormValue "quality"))).1, ?_⟩
    rw [handleCompress_ok env1 r1 w1 σ u img fmt hm hf hd hc he]
    simp [afterEncode, World.write, World.log, outPath, outFilename, filepathJoin]
  · intro he
    exact hname (downloadURL_filename o1 o2 _ _ (outFilename_no_slash _)
      (outFilename_no_slash _) he)
  · exact handleCompress_frame env2 r2 w2 _ _ hpath

/-! ## The root route -/

/-- C8 (amended): a GET request to the path `/` is answered with status 200,
content type `application/json` and one JSON object that has all seven
members of `CompressResponse`: `success` true, `message`
`Welcome to Squeeze API`, and `originalSize`, `compressedSize`, `savings`,
`downloadUrl` and `format` at their zero values. -/
theorem root_welcome {Img : Type} (env : Env Img) (σ : World) (form : List (String × String))
    (files : Option (List (String × Upload))) :
    serveMux env { Method := "GET", Path := "/", Form := form, MultipartFiles := files }
      ResponseWriter.fresh σ =
      ({ header := [("Content-Type", "application/json")],
         status := some 200,
         sent := [("Content-Type", "application/json")],
         body :=
           [Chunk.json
             [("success", JSONValue.bool true),
              ("message", JSONValue.str "Welcome to Squeeze API"),
              ("originalSize", JSONValue.int 0),
              ("compressedSize", JSONValue.int 0),
              ("savings", JSONValue.num (Float64.ofInt 0)),
              ("downloadUrl", JSONValue.str ""),
              ("format", JSONValue.str "")]],
         aborted := false }, σ) := by
  have h1 : ("/" : String) ≠ "/api/compress" := by decide
  have h2 : beginsWith "/download/".toList ("/" : String).toList = false := by decide
  have h3 : ("/" : String) ≠ "/download" := by decide
  simp only [serveMux, h1, h2, h3, if_false, Bool.false_eq_true]
  rfl

/-- C8 as stated fails: the body of the answer to `GET /` is not the object
with the two members `success` and `message`; it has seven members. -/
theorem root_body_not_two_members :
    (serveMux sampleEnv { Method := "GET", Path := "/" } ResponseWriter.fresh
      sampleWorld).1.body ≠
      [Chunk.json
        [("success", JSONValue.bool true),
         ("message", JSONValue.str "Welcome to Squeeze API")]] ∧
    JSONObject.keys (marshal { Success := true, Message := "Welcome to Squeeze API" }) =
      ["success", "message", "originalSize", "compressedSize", "savings", "downloadUrl",
       "format"] := by
  refine ⟨by decide, by decide⟩

/-! ## The claims at sample inputs -/

/-- The sample request with quality 80 succeeds. -/
theorem sampleRequest_ok :
    (handleCompress sampleEnv (sampleRequest "80") ResponseWriter.fresh sampleWorld).1.status
      = some 200 :=
  (handleCompress_200_iff sampleEnv (sampleRequest "80") ResponseWriter.fresh sampleWorld
    rfl).mpr ⟨rfl, sampleUpload, 5, "jpeg", rfl, rfl, rfl, rfl⟩

/-- C1 at sample inputs: the field `150` reaches the encoder as 150, the field
`0` and the field `abc` as 75. -/
theorem handleCompress_quality_witness :
    Event.encode 150 ∈
      (handleCompress sampleEnv (sampleRequest "150") ResponseWriter.fresh
        sampleWorld).2.trace ∧
    quality ((sampleRequest "150").FormValue "quality") = 150 ∧
    quality ((sampleRequest "0").FormValue "quality") = 75 ∧
    quality ((sampleRequest "abc").FormValue "quality") = 75 := by
  have h150 := (handleCompress_quality sampleEnv (sampleRequest "150") ResponseWriter.fresh
    sampleWorld).2.2.2.2.2.1 150 (by decide) (by decide) (by decide)
  refine ⟨?_, h150, ?_, ?_⟩
  · have h := (handleCompress_quality sampleEnv (sampleRequest "150") ResponseWriter.fresh
      sampleWorld).2.1 sampleUpload 5 "jpeg" rfl rfl rfl rfl
    rw [h150] at h
    exact h
  · exact (handleCompress_quality sampleEnv (sampleRequest "0") ResponseWriter.fresh
      sampleWorld).2.2.2.2.1 0 (by decide) (by decide)
  · exact (handleCompress_quality sampleEnv (sampleRequest "abc") ResponseWriter.fresh
      sampleWorld).2.2.2.1 (by decide) (by decide)

/-- C2 at sample inputs: a GET request gets 405 and leaves the effects empty, a
request without image part gets 400, and the well-formed request gets 200. -/
theorem handleCompress_status_witness :
    ResponseWriter.fresh.status = none ∧
    (handleCompress sampleEnv { Method := "GET" } ResponseWriter.fresh sampleWorld).1.status
      = some 405 ∧
    (handleCompress sampleEnv { Method := "GET" } ResponseWriter.fresh sampleWorld).2.trace
      = [] ∧
    (handleCompress sampleEnv sampleNoImage ResponseWriter.fresh sampleWorld).1.status
      = some 400 ∧
    (handleCompress sampleEnv (sampleRequest "80") ResponseWriter.fresh sampleWorld).1.status
      = some 200 := by
  have h1 := (handleCompress_status sampleEnv { Method := "GET" } ResponseWriter.fresh
    sampleWorld rfl).1 (by decide)
  have h2 := (handleCompress_status sampleEnv sampleNoImage ResponseWriter.fresh
    sampleWorld rfl).2.1 rfl rfl
  have h3 := (handleCompress_status sampleEnv (sampleRequest "80") ResponseWriter.fresh
    sampleWorld rfl).2.2.2.2.2.1.mpr ⟨rfl, sampleUpload, 5, "jpeg", rfl, rfl, rfl, rfl⟩
  exact ⟨rfl, h1.1, h1.2.1, h2, h3⟩

/-- C4 at the sample request: the payload of the successful compression. -/
theorem handleCompress_success_payload_witness :
    ∃ u img fmt data, (sampleRequest "80").FormFile "image" = some u ∧
      imageDecode (registeredFormats sampleEnv) u.content = Except.ok (img, fmt) ∧
      (handleCompress sampleEnv (sampleRequest "80") ResponseWriter.fresh sampleWorld).2.files
        (filepathJoin "compressed" (outFilename sampleEnv.now)) = some data ∧
      (handleCompress sampleEnv (sampleRequest "80") ResponseWriter.fresh sampleWorld).1.body
        = ResponseWriter.fresh.body ++
        [Chunk.json
          [("success", JSONValue.bool true),
           ("message", JSONValue.str ""),
           ("originalSize", JSONValue.int u.Size),
           ("compressedSize", JSONValue.int (Int.ofNat data.length)),
           ("savings", JSONValue.num (savings (Int.ofNat data.length) u.Size)),
           ("downloadUrl", JSONValue.str
              (sampleEnv.getenv "ALLOWED_ORIGIN" ++ "/download/" ++
                outFilename sampleEnv.now)),
           ("format", JSONValue.str fmt)]] :=
  handleCompress_success_payload sampleEnv (sampleRequest "80") ResponseWriter.fresh
    sampleWorld rfl sampleRequest_ok

/-- C5 (amended) at the sample request without image part. -/
theorem handleCompress_upload_failure_witness :
    (handleCompress sampleEnv sampleNoImage ResponseWriter.fresh sampleWorld).1.status
      = some 400 ∧
    (handleCompress sampleEnv sampleNoImage ResponseWriter.fresh sampleWorld).1.body =
      ResponseWriter.fresh.body ++
      [Chunk.json
        [("success", JSONValue.bool false),
         ("message", JSONValue.str "Failed to upload image"),
         ("originalSize", JSONValue.int 0),
         ("compressedSize", JSONValue.int 0),
         ("savings", JSONValue.num (Float64.ofInt 0)),
         ("downloadUrl", JSONValue.str ""),
         ("format", JSONValue.str "")]] ∧
    (handleCompress sampleEnv sampleNoImage ResponseWriter.fresh sampleWorld).2.files =
      sampleWorld.files :=
  handleCompress_upload_failure sampleEnv sampleNoImage ResponseWriter.fresh sampleWorld
    rfl rfl (Or.inr ⟨[], rfl, by simp⟩)

/-- C6 at the sample request whose image part is the text `hello`. -/
theorem handleCompress_decode_failure_witness :
    (handleCompress sampleEnv sampleNotImage ResponseWriter.fresh sampleWorld).1.status
      = some 400 ∧
    (handleCompress sampleEnv sampleNotImage ResponseWriter.fresh sampleWorld).1.body =
      ResponseWriter.fresh.body ++
      [Chunk.json
        [("success", JSONValue.bool false),
         ("message", JSONValue.str ("Unsupported image format: " ++ "image: unknown format")),
         ("originalSize", JSONValue.int 0),
         ("compressedSize", JSONValue.int 0),
         ("savings", JSONValue.num (Float64.ofInt 0)),
         ("downloadUrl", JSONValue.str ""),
         ("format", JSONValue.str "")]] ∧
    (handleCompress sampleEnv sampleNotImage ResponseWriter.fresh sampleWorld).2.trace =
      sampleWorld.trace ++
      [Event.parseMultipartForm 10485760, Event.formFile "image", Event.decode] ∧
    (handleCompress sampleEnv sampleNotImage ResponseWriter.fresh sampleWorld).2.files =
      sampleWorld.files :=
  handleCompress_decode_failure sampleEnv sampleNotImage ResponseWriter.fresh sampleWorld
    { content := [0x68, 0x65, 0x6c, 0x6c, 0x6f] } "image: unknown format" rfl rfl rfl rfl

/-- C7 at sample inputs: on OPTIONS the wrapped handler leaves no effect and
the status is 200; on GET it is invoked once and its status 204 stands. -/
theorem enableCORS_preflight_witness :
    (enableCORS sampleEnv sampleNext { Method := "OPTIONS" } ResponseWriter.fresh
      sampleWorld).2.trace = [] ∧
    (enableCORS sampleEnv sampleNext { Method := "OPTIONS" } ResponseWriter.fresh
      sampleWorld).1.status = some 200 ∧
    (enableCORS sampleEnv sampleNext { Method := "GET" } ResponseWriter.fresh
      sampleWorld).2.trace = [Event.stat "next"] ∧
    (enableCORS sampleEnv sampleNext { Method := "GET" } ResponseWriter.fresh
      sampleWorld).1.status = some 204 := by
  have h1 := (enableCORS_preflight sampleEnv sampleNext { Method := "OPTIONS" }
    ResponseWriter.fresh sampleWorld).2.1 rfl
  have h2 := (enableCORS_preflight sampleEnv sampleNext { Method := "GET" }
    ResponseWriter.fresh sampleWorld).2.2.1 (by decide)
  rw [h1, h2]
  exact ⟨rfl, rfl, rfl, rfl⟩

/-- C9 at the two sample environments, whose clock readings differ by one. -/
theorem outFilename_distinct_witness :
    sampleEnv.now ≠ sampleLater.now ∧
    outFilename sampleEnv.now ≠ outFilename sampleLater.now ∧
    outPath sampleEnv.now ≠ outPath sampleLater.now ∧
    downloadURL "https://a.example" (outFilename sampleEnv.now) ≠
      downloadURL "https://b.example" (outFilename sampleLater.now) ∧
    (handleCompress sampleLater (sampleRequest "80") ResponseWriter.fresh
      (handleCompress sampleEnv (sampleRequest "80") ResponseWriter.fresh
        sampleWorld).2).2.files (outPath sampleEnv.now) =
      (handleCompress sampleEnv (sampleRequest "80") ResponseWriter.fresh
        sampleWorld).2.files (outPath sampleEnv.now) := by
  have h := outFilename_distinct sampleEnv sampleLater (sampleRequest "80")
    (sampleRequest "80") ResponseWriter.fresh ResponseWriter.fresh sampleWorld
    "https://a.example" "https://b.example" (by decide)
  exact ⟨by decide, h.2.2.2.1, h.2.2.2.2.1, h.2.2.2.2.2.1, h.2.2.2.2.2.2⟩

/-- C10 at the sample request whose image part is empty. -/
theorem handleCompress_empty_image_witness :
    ResponseWriter.fresh.status = none ∧
    (handleCompress sampleEnv sampleEmptyImage ResponseWriter.fresh sampleWorld).1.status
      = some 400 ∧
    (∃ u, (sampleRequest "80").FormFile "image" = some u ∧ 0 < u.Size) := by
  have h1 := (handleCompress_empty_image sampleEnv sampleEmptyImage ResponseWriter.fresh
    sampleWorld rfl).1 { content := [] } rfl rfl rfl
  have h2 := (handleCompress_empty_image sampleEnv (sampleRequest "80") ResponseWriter.fresh
    sampleWorld rfl).2.2.1 sampleRequest_ok
  exact ⟨rfl, h1.1, h2⟩

end Squeeze
